import Mathlib

set_option linter.unusedVariables false
set_option linter.unreachableTactic false
set_option linter.unusedTactic false
set_option maxHeartbeats 1000000

/-!
Shallow embedding of the ERD design tool's schema pipeline
(lexer, parser, IR, validator, graph builder, grid layout engine, schema diff)
together with theorems checking the specification's claims against it.

Conventions of the embedding:
* JavaScript numbers are modelled as `Int` (geometry) or `Nat` (indices,
  line/column counters); every arithmetic operation performed by the code on
  these values is integral.
* TypeScript string-literal unions (`ColumnType`, `RelationType`, severity
  tags, diff actions) are modelled as `String`.
* Optional fields (`x?: T`) are modelled as `Option T`; `a ?? b` is `Option.getD`.
* `Set`/`Map` objects are modelled by lists with the same membership/lookup
  semantics (`Map.get` returns the value of the last `set` for a key).
* Thrown `ParserError`s are modelled with `Except`.
* The field names `from`/`to` of `Relation` and `Edge` are Lean keywords and
  are embedded as `rfrom`/`rto` (relations) and `efrom`/`eto` (edges).
-/

deriving instance DecidableEq for Except

namespace Erd

-- ─────────────────────────────────────────────────────────────
-- Lexer: token types (core/parser/lexer TokenType)
-- ─────────────────────────────────────────────────────────────

/-- Token types of the ERD DSL lexer. -/
inductive TokenType where
  | TABLE | ENUM | REF | TABLEGROUP | AS | NOTE | INDEXES
  | LBRACE | RBRACE | LBRACKET | RBRACKET | LPAREN | RPAREN | COMMA | COLON | DOT
  | REL_ONE_TO_ONE | REL_ONE_TO_MANY | REL_MANY_TO_ONE | REL_MANY_TO_MANY
  | IDENTIFIER | STRING | NUMBER | NEWLINE | EOF | UNKNOWN
deriving DecidableEq, Repr

/-- Printed name of a token type, as used in parser error messages
(TypeScript interpolates the union string itself). -/
def typeName : TokenType → String
  | .TABLE => "TABLE"
  | .ENUM => "ENUM"
  | .REF => "REF"
  | .TABLEGROUP => "TABLEGROUP"
  | .AS => "AS"
  | .NOTE => "NOTE"
  | .INDEXES => "INDEXES"
  | .LBRACE => "LBRACE"
  | .RBRACE => "RBRACE"
  | .LBRACKET => "LBRACKET"
  | .RBRACKET => "RBRACKET"
  | .LPAREN => "LPAREN"
  | .RPAREN => "RPAREN"
  | .COMMA => "COMMA"
  | .COLON => "COLON"
  | .DOT => "DOT"
  | .REL_ONE_TO_ONE => "REL_ONE_TO_ONE"
  | .REL_ONE_TO_MANY => "REL_ONE_TO_MANY"
  | .REL_MANY_TO_ONE => "REL_MANY_TO_ONE"
  | .REL_MANY_TO_MANY => "REL_MANY_TO_MANY"
  | .IDENTIFIER => "IDENTIFIER"
  | .STRING => "STRING"
  | .NUMBER => "NUMBER"
  | .NEWLINE => "NEWLINE"
  | .EOF => "EOF"
  | .UNKNOWN => "UNKNOWN"

/-- A lexer token: type, source text, and 1-based line/column. -/
structure Token where
  type : TokenType
  value : String
  line : Nat
  column : Nat
deriving DecidableEq, Repr

/-- Character class of the regular expression used by the lexer's
isAlphaNumeric helper. -/
def isAlphaNumericCh (c : Char) : Bool := c.isAlpha || c.isDigit || c == '_'

/-- Characters consumed by readNumber: digits and dots (the TypeScript loop
condition is isDigit or a literal dot). -/
def isNumberCh (c : Char) : Bool := c.isDigit || c == '.'

/-- Keyword table of the lexer (the case-sensitive KEYWORDS record),
defaulting to IDENTIFIER. -/
def keywordType (s : String) : TokenType :=
  if s == "table" || s == "Table" || s == "TABLE" then .TABLE
  else if s == "enum" || s == "Enum" || s == "ENUM" then .ENUM
  else if s == "ref" || s == "Ref" || s == "REF" then .REF
  else if s == "tablegroup" || s == "TableGroup" then .TABLEGROUP
  else if s == "as" then .AS
  else if s == "note" || s == "Note" then .NOTE
  else if s == "indexes" || s == "Indexes" then .INDEXES
  else .IDENTIFIER

/-- Skip a line comment: the lexer advances while the current character is
not a newline, incrementing the column per character. Returns the remaining
input (starting at the newline, if any) and the new column. -/
def skipLineComment : List Char → Nat → List Char × Nat
  | [], col => ([], col)
  | c :: rest, col =>
    if c == '\n' then (c :: rest, col) else skipLineComment rest (col + 1)

/-- Whitespace-and-comment skipping of the lexer. The boolean mode is true
while inside a block comment. Inside a block comment a newline sets the
column to 0 and the following advance makes it 1; the comment body
increments the line counter. A line comment is skipped by the
skipLineComment loop, after which the current character is a newline or the
end of input, on both of which the whitespace loop stops immediately. -/
def skipWSMode : Bool → List Char → Nat → Nat → List Char × Nat × Nat
  | _, [], line, col => ([], line, col)
  | true, '*' :: '/' :: rest, line, col => skipWSMode false rest line (col + 2)
  | true, '\n' :: rest, line, col => skipWSMode true rest (line + 1) 1
  | true, _ :: rest, line, col => skipWSMode true rest line (col + 1)
  | false, ' ' :: rest, line, col => skipWSMode false rest line (col + 1)
  | false, '\t' :: rest, line, col => skipWSMode false rest line (col + 1)
  | false, '\r' :: rest, line, col => skipWSMode false rest line (col + 1)
  | false, '/' :: '/' :: rest, line, col =>
    let p := skipLineComment ('/' :: '/' :: rest) col
    (p.1, line, p.2)
  | false, '/' :: '*' :: rest, line, col => skipWSMode true rest line (col + 2)
  | false, cs, line, col => (cs, line, col)

/-- Entry point of skipWhitespaceAndComments. -/
def skipWS (cs : List Char) (line col : Nat) : List Char × Nat × Nat :=
  skipWSMode false cs line col

/-- The body of readString after the opening quote: accumulates the string
value, handling a backslash as escape-the-next-character. The returned Nat
is the total number of advance calls of readString (it starts at 1 for the
opening quote), which is the column offset for subsequent tokens. When a
backslash is the final character, the JavaScript code appends the string
coercion of undefined to the value. -/
def readStringGo (quote : Char) : List Char → String → Nat → String × List Char × Nat
  | [], acc, d => (acc, [], d + 1)
  | c :: rest, acc, d =>
    if c == quote then (acc, rest, d + 1)
    else if c == '\\' then
      match rest with
      | [] => (acc ++ "undefined", [], d + 3)
      | e :: rest2 => readStringGo quote rest2 (acc.push e) (d + 2)
    else readStringGo quote rest (acc.push c) (d + 1)

/-- Length bound used for termination of the main lexer loop. -/
def readStringGo_len (quote : Char) : (cs : List Char) → (acc : String) → (d : Nat) →
    (readStringGo quote cs acc d).2.1.length ≤ cs.length
  | [], _, _ => by simp [readStringGo]
  | c :: rest, acc, d => by
    unfold readStringGo
    split
    · simp
    · split
      · match rest with
        | [] => simp
        | e :: rest2 =>
          have h := readStringGo_len quote rest2 (acc.push e) (d + 2)
          simp only [List.length_cons]
          omega
      · have h := readStringGo_len quote rest (acc.push c) (d + 1)
        simp only [List.length_cons]
        omega

/-- Length bound for skipLineComment. -/
def skipLineComment_len : ∀ (cs : List Char) (col : Nat),
    (skipLineComment cs col).1.length ≤ cs.length
  | [], _ => by simp [skipLineComment]
  | c :: rest, col => by
    unfold skipLineComment
    split
    · simp
    · have h := skipLineComment_len rest (col + 1)
      simp only [List.length_cons]
      omega

/-- Length bound for the whitespace-and-comment skipper. -/
def skipWSMode_len (mode : Bool) (cs : List Char) (line col : Nat) :
    (skipWSMode mode cs line col).1.length ≤ cs.length := by
  induction mode, cs, line, col using skipWSMode.induct with
  | case1 mode line col => simp [skipWSMode]
  | case2 rest line col ih => simp only [skipWSMode, List.length_cons]; omega
  | case3 rest line col ih => simp only [skipWSMode, List.length_cons]; omega
  | case4 c rest line col h1 h2 ih =>
    rw [skipWSMode.eq_4 line col c rest h1 h2]
    simp only [List.length_cons]
    omega
  | case5 rest line col ih => simp only [skipWSMode, List.length_cons]; omega
  | case6 rest line col ih => simp only [skipWSMode, List.length_cons]; omega
  | case7 rest line col ih => simp only [skipWSMode, List.length_cons]; omega
  | case8 rest line col =>
    have h := skipLineComment_len ('/' :: '/' :: rest) col
    simp only [skipWSMode]
    simpa using h
  | case9 rest line col ih => simp only [skipWSMode, List.length_cons]; omega
  | case10 cs line col h1 h2 h3 h4 h5 h6 =>
    rw [skipWSMode.eq_10 cs line col h1 h2 h3 h4 h5 h6]

/-- Length bound for skipWS. -/
def skipWS_len (cs : List Char) (line col : Nat) :
    (skipWS cs line col).1.length ≤ cs.length :=
  skipWSMode_len false cs line col

/-- Length bound for dropWhile, used for termination of the lexer loop. -/
def dropWhile_len (p : Char → Bool) : ∀ (l : List Char), (l.dropWhile p).length ≤ l.length
  | [] => by simp
  | c :: rest => by
    simp only [List.dropWhile]
    split
    · have h := dropWhile_len p rest
      simp only [List.length_cons]; omega
    · simp

-- ─────────────────────────────────────────────────────────────
-- Lexer: main tokenize loop
-- ─────────────────────────────────────────────────────────────

/-- One dispatch step of the main lexer loop, at a current character and
the characters after it: the emitted token, the remaining input, and the
updated line and column. The readNumber and readIdentifier loops are
rendered with takeWhile/dropWhile on the remaining characters (the first
character has already been tested by the dispatch). -/
def lexStep (c : Char) (rest : List Char) (line col : Nat) :
    Token × List Char × Nat × Nat :=
  if c == '\n' then
    (⟨.NEWLINE, "\n", line, col⟩, rest, line + 1, 1)
  else if c == '\'' || c == '\"' || c == '\x60' then
    (⟨.STRING, (readStringGo c rest "" 1).1, line, col⟩,
      (readStringGo c rest "" 1).2.1, line, col + (readStringGo c rest "" 1).2.2)
  else if c.isDigit then
    (⟨.NUMBER, ⟨c :: rest.takeWhile isNumberCh⟩, line, col⟩,
      rest.dropWhile isNumberCh, line, col + (c :: rest.takeWhile isNumberCh).length)
  else if c.isAlpha || c == '_' then
    (⟨keywordType ⟨c :: rest.takeWhile isAlphaNumericCh⟩, ⟨c :: rest.takeWhile isAlphaNumericCh⟩, line, col⟩,
      rest.dropWhile isAlphaNumericCh, line, col + (c :: rest.takeWhile isAlphaNumericCh).length)
  else if c == '\x7b' then (⟨.LBRACE, "\x7b", line, col⟩, rest, line, col + 1)
  else if c == '\x7d' then (⟨.RBRACE, "\x7d", line, col⟩, rest, line, col + 1)
  else if c == '[' then (⟨.LBRACKET, "[", line, col⟩, rest, line, col + 1)
  else if c == ']' then (⟨.RBRACKET, "]", line, col⟩, rest, line, col + 1)
  else if c == '(' then (⟨.LPAREN, "(", line, col⟩, rest, line, col + 1)
  else if c == ')' then (⟨.RPAREN, ")", line, col⟩, rest, line, col + 1)
  else if c == ',' then (⟨.COMMA, ",", line, col⟩, rest, line, col + 1)
  else if c == ':' then (⟨.COLON, ":", line, col⟩, rest, line, col + 1)
  else if c == '.' then (⟨.DOT, ".", line, col⟩, rest, line, col + 1)
  else if c == '-' then (⟨.REL_ONE_TO_ONE, "-", line, col⟩, rest, line, col + 1)
  else if c == '<' then
    if rest.head? == some '>' then
      (⟨.REL_MANY_TO_MANY, "<>", line, col⟩, rest.tail, line, col + 2)
    else
      (⟨.REL_ONE_TO_MANY, "<", line, col⟩, rest, line, col + 1)
  else if c == '>' then (⟨.REL_MANY_TO_ONE, ">", line, col⟩, rest, line, col + 1)
  else (⟨.UNKNOWN, String.singleton c, line, col⟩, rest, line, col + 1)

/-- Main loop of Lexer.tokenize: skip whitespace and comments, then emit one
token per iteration via lexStep; a synthetic EOF token is appended when the
input is exhausted. Every iteration consumes at least one character, so the
fuel bound of tokenize (length of the input plus one) is never exhausted;
the fuel-out value [] is unreachable through tokenize. -/
def lexLoopF : Nat → List Char → Nat → Nat → List Token
  | 0, _, _, _ => []
  | fuel + 1, cs, line, col =>
    match skipWS cs line col with
    | (cs0, line', col') =>
      match cs0 with
      | [] => [⟨.EOF, "", line', col'⟩]
      | c :: rest =>
        match lexStep c rest line' col' with
        | (tok, rest', line2, col2) => tok :: lexLoopF fuel rest' line2 col2

/-- The lexer loop at its standard fuel. -/
def lexLoop (cs : List Char) (line col : Nat) : List Token :=
  lexLoopF (cs.length + 1) cs line col

/-- Lexer.tokenize: run the lexer on a string, starting at line 1, column 1. -/
def tokenize (input : String) : List Token := lexLoop input.data 1 1

-- ─────────────────────────────────────────────────────────────
-- IR types (core/ir/types)
-- ─────────────────────────────────────────────────────────────

/-- Default values in column settings. The TypeScript union is
string or number or boolean or null; a numeric default is produced by
parseFloat on a NUMBER token and is kept here as its raw literal text
(its floating-point value is never inspected by the core). -/
inductive JsDefault where
  | str (s : String)
  | num (raw : String)
  | boolean (b : Bool)
  | null
deriving DecidableEq, Repr

/-- Column settings. Every field of the TypeScript interface is optional. -/
structure ColumnSettings where
  primaryKey : Option Bool := none
  unique : Option Bool := none
  notNull : Option Bool := none
  autoIncrement : Option Bool := none
  default : Option JsDefault := none
  note : Option String := none
  length : Option Nat := none
  precision : Option Nat := none
  scale : Option Nat := none
  enumValues : Option (List String) := none
deriving DecidableEq, Repr

/-- Column of the IR. The type field holds the ColumnType string union. -/
structure Column where
  name : String
  type : String
  rawType : Option String := none
  settings : ColumnSettings
deriving DecidableEq, Repr

/-- Table index of the IR. -/
structure Index where
  name : Option String := none
  columns : List String
  unique : Option Bool := none
  type : Option String := none
deriving DecidableEq, Repr

/-- Table of the IR. -/
structure Table where
  name : String
  schema : Option String := none
  -- the source field name alias is a Lean keyword
  aliasName : Option String := none
  columns : List Column
  indexes : List Index
  note : Option String := none
deriving DecidableEq, Repr

/-- A relation endpoint, a table name and column name pair. -/
structure RelEndpoint where
  table : String
  column : String
deriving DecidableEq, Repr

/-- Relation of the IR; type holds the RelationType string union.
The source fields from and to are Lean keywords, embedded as rfrom/rto. -/
structure Relation where
  name : Option String := none
  rfrom : RelEndpoint
  rto : RelEndpoint
  type : String
  note : Option String := none
deriving DecidableEq, Repr

/-- A value of a declared enum. -/
structure EnumValue where
  name : String
  note : Option String := none
deriving DecidableEq, Repr

/-- A declared enum. -/
structure DbEnum where
  name : String
  values : List EnumValue
  note : Option String := none
deriving DecidableEq, Repr

/-- Table group of the IR: a nominal list of table names. -/
structure TableGroup where
  name : String
  tables : List String
deriving DecidableEq, Repr

/-- The IR root. -/
structure DatabaseSchema where
  name : Option String := none
  tables : List Table
  relations : List Relation
  enums : List DbEnum
  tableGroups : List TableGroup
  note : Option String := none
deriving DecidableEq, Repr

/-- Location of a validation finding. -/
structure ErrLocation where
  table : Option String := none
  column : Option String := none
  relation : Option String := none
deriving DecidableEq, Repr

/-- A validation finding; type is the severity string, error or warning. -/
structure ValidationError where
  type : String
  message : String
  location : Option ErrLocation := none
deriving DecidableEq, Repr

/-- Result of validateSchema. -/
structure ValidationResult where
  valid : Bool
  errors : List ValidationError
deriving DecidableEq, Repr

-- ─────────────────────────────────────────────────────────────
-- Parser (core/parser/parser)
-- ─────────────────────────────────────────────────────────────

/-- ParserError thrown by the parser; the optional offending token value is
kept, and line/column fall back to 0 when no token is available. -/
structure ParserError where
  message : String
  line : Nat
  column : Nat
  value : Option String := none
deriving DecidableEq, Repr

/-- Parser state is the remaining token list; this.current() is its head. -/
def pcheck (ty : TokenType) (ts : List Token) : Bool :=
  match ts.head? with
  | some t => t.type == ty
  | none => false

/-- Parser.isAtEnd: the current token is EOF or the cursor is past the end. -/
def isAtEnd (ts : List Token) : Bool :=
  match ts.head? with
  | some t => t.type == TokenType.EOF
  | none => true

/-- Parser.skipNewlines. -/
def skipNewlines : List Token → List Token
  | t :: rest => if t.type == TokenType.NEWLINE then skipNewlines rest else t :: rest
  | [] => []

/-- Parser.peekNext: the token after the current one. -/
def peekNext (ts : List Token) : Option Token := ts.tail.head?

/-- Message text of an expect failure; JavaScript renders a missing token as
the string undefined in the template literal. -/
def expectMsg (ty : TokenType) (tok : Option Token) : String :=
  "Expected " ++ typeName ty ++ " but got "
    ++ (match tok with | some t => typeName t.type | none => "undefined")
    ++ " (\"" ++ (match tok with | some t => t.value | none => "undefined") ++ "\")"

/-- Parser.expect: consume a token of the given type or fail with a
positioned ParserError. -/
def expect (ty : TokenType) (ts : List Token) : Except ParserError (Token × List Token) :=
  match ts with
  | t :: rest =>
    if t.type == ty then .ok (t, rest)
    else .error ⟨expectMsg ty (some t), t.line, t.column, some t.value⟩
  | [] => .error ⟨expectMsg ty none, 0, 0, none⟩

/-- Error used for the zero-consumption loop iterations of parseIndexes, on
which the TypeScript code would loop forever; the fuel argument of each
parser loop makes that divergence observable as this error instead. Every
loop iteration reachable from parseDSL consumes at least one token and
parseDSL passes more fuel than there are tokens, so parseDSL itself never
returns this error on inputs the source parser terminates on. -/
def fuelError : ParserError := ⟨"loop did not terminate", 0, 0, none⟩

/-- Error modelling a JavaScript TypeError from reading a property of
this.current() when the cursor is past the end of the token array; not
reachable from parseDSL because the token list always ends with EOF. -/
def jsUndefinedError : ParserError := ⟨"TypeError: token is undefined", 0, 0, none⟩

/-- JavaScript toLowerCase, per character (all strings the parser lowers
are ASCII identifier or keyword spellings). -/
def jsToLower (s : String) : String := ⟨s.data.map Char.toLower⟩

/-- Parser.mapColumnType: fixed case-insensitive lookup defaulting to
unknown. -/
def mapColumnType (raw : String) : String :=
  let lower := jsToLower raw
  if lower == "int" then "int"
  else if lower == "integer" then "int"
  else if lower == "bigint" then "bigint"
  else if lower == "smallint" then "smallint"
  else if lower == "float" then "float"
  else if lower == "double" then "double"
  else if lower == "decimal" then "decimal"
  else if lower == "numeric" then "decimal"
  else if lower == "varchar" then "varchar"
  else if lower == "char" then "char"
  else if lower == "text" then "text"
  else if lower == "bool" then "boolean"
  else if lower == "boolean" then "boolean"
  else if lower == "date" then "date"
  else if lower == "datetime" then "datetime"
  else if lower == "timestamp" then "timestamp"
  else if lower == "time" then "time"
  else if lower == "uuid" then "uuid"
  else if lower == "json" then "json"
  else if lower == "jsonb" then "json"
  else if lower == "blob" then "blob"
  else if lower == "binary" then "blob"
  else if lower == "enum" then "enum"
  else "unknown"

/-- JavaScript parseInt with radix 10 on a NUMBER token value: reads the
leading digits. NUMBER tokens always begin with a digit, so the NaN case of
parseInt is unreachable here. -/
def jsParseInt (s : String) : Nat :=
  (s.data.takeWhile Char.isDigit).foldl (fun acc c => acc * 10 + (c.toNat - 48)) 0

/-- Parser.parseDefaultValue: interpret the next token as a default value. -/
def parseDefaultValue (ts : List Token) : Except ParserError (JsDefault × List Token) :=
  match ts with
  | tok :: rest =>
    .ok ((if tok.type == TokenType.STRING then .str tok.value
          else if tok.type == TokenType.NUMBER then .num tok.value
          else if jsToLower tok.value == "null" then .null
          else if jsToLower tok.value == "true" then .boolean true
          else if jsToLower tok.value == "false" then .boolean false
          else .str tok.value), rest)
  | [] => .error jsUndefinedError

/-- Parser.parseTableColumn: IDENT DOT IDENT. -/
def parseTableColumn (ts : List Token) : Except ParserError (RelEndpoint × List Token) := do
  let (t1, ts) ← expect .IDENTIFIER ts
  let (_, ts) ← expect .DOT ts
  let (t2, ts) ← expect .IDENTIFIER ts
  .ok (⟨t1.value, t2.value⟩, ts)

/-- Parser.parseRelationType: consume the single token in operator position
unconditionally and map it, defaulting to one-to-many. -/
def parseRelationType (ts : List Token) : Except ParserError (String × List Token) :=
  match ts with
  | tok :: rest =>
    .ok ((match tok.type with
          | .REL_ONE_TO_ONE => "one-to-one"
          | .REL_ONE_TO_MANY => "one-to-many"
          | .REL_MANY_TO_ONE => "many-to-one"
          | .REL_MANY_TO_MANY => "many-to-many"
          | _ => "one-to-many"), rest)
  | [] => .error jsUndefinedError

/-- Parser.parseRef. -/
def parseRef (ts : List Token) : Except ParserError (Relation × List Token) := do
  let (_, ts) ← expect .REF ts
  let pr : Option String × List Token :=
    if pcheck .IDENTIFIER ts && (peekNext ts).any (fun t => t.type == TokenType.COLON) then
      match ts with
      | t :: rest => (some t.value, rest)
      | [] => (none, ts)
    else (none, ts)
  let refName := pr.1
  let ts := pr.2
  let ts := if pcheck .COLON ts then ts.tail else ts
  let (rfrom, ts) ← parseTableColumn ts
  let (rtype, ts) ← parseRelationType ts
  let (rto, ts) ← parseTableColumn ts
  .ok ({ name := refName, rfrom := rfrom, rto := rto, type := rtype }, ts)

/-- Bracketed column settings loop of Parser.parseColumn. Advances one
setting name per iteration, with extra consumption for the two-token
not-null form and for default/note values; a trailing comma is skipped at
the bottom of each iteration. -/
def parseColumnSettings : Nat → List Token → ColumnSettings →
    Except ParserError (ColumnSettings × List Token)
  | 0, _, _ => .error fuelError
  | fuel + 1, ts, settings =>
    if !(pcheck .RBRACKET ts) && !(isAtEnd ts) then
      match ts with
      | tok :: rest =>
        let settingName := jsToLower tok.value
        let branch : Except ParserError (ColumnSettings × List Token) :=
          if settingName == "pk" || settingName == "primary" || settingName == "primary_key" then
            .ok ({ settings with primaryKey := some true }, rest)
          else if settingName == "unique" then
            .ok ({ settings with unique := some true }, rest)
          else if settingName == "not"
              && (rest.head?.map (fun t => jsToLower t.value)) == some "null" then
            .ok ({ settings with notNull := some true }, rest.tail)
          else if settingName == "notnull" || settingName == "not_null" then
            .ok ({ settings with notNull := some true }, rest)
          else if settingName == "increment" || settingName == "auto_increment" then
            .ok ({ settings with autoIncrement := some true }, rest)
          else if settingName == "default" then
            let rest := if pcheck .COLON rest then rest.tail else rest
            match parseDefaultValue rest with
            | .error e => .error e
            | .ok (v, rest') => .ok ({ settings with default := some v }, rest')
          else if settingName == "note" then
            let rest := if pcheck .COLON rest then rest.tail else rest
            match expect .STRING rest with
            | .error e => .error e
            | .ok (t, rest') => .ok ({ settings with note := some t.value }, rest')
          else
            .ok (settings, rest)
        match branch with
        | .error e => .error e
        | .ok (s', rest') =>
          parseColumnSettings fuel (if pcheck .COMMA rest' then rest'.tail else rest') s'
      | [] => .error jsUndefinedError
    else .ok (settings, ts)

/-- Optional length/precision parenthesis of Parser.parseColumn; returns
(length, precision, scale). -/
def parseColLenParams (ts : List Token) :
    Except ParserError ((Option Nat × Option Nat × Option Nat) × List Token) :=
  if pcheck .LPAREN ts then do
    let ts := ts.tail
    let (t1, ts) ← expect .NUMBER ts
    let first := jsParseInt t1.value
    if pcheck .COMMA ts then do
      let ts := ts.tail
      let (t2, ts) ← expect .NUMBER ts
      let (_, ts) ← expect .RPAREN ts
      .ok ((none, some first, some (jsParseInt t2.value)), ts)
    else do
      let (_, ts) ← expect .RPAREN ts
      .ok ((some first, none, none), ts)
  else .ok ((none, none, none), ts)

/-- Parser.parseColumn. -/
def parseColumn (fuel : Nat) (ts : List Token) : Except ParserError (Column × List Token) := do
  let (nameTok, ts) ← expect .IDENTIFIER ts
  let (typeTok, ts) ← expect .IDENTIFIER ts
  let (lps, ts) ← parseColLenParams ts
  let settings0 : ColumnSettings := { length := lps.1, precision := lps.2.1, scale := lps.2.2 }
  if pcheck .LBRACKET ts then do
    let ts := ts.tail
    let (settings, ts) ← parseColumnSettings fuel ts settings0
    let (_, ts) ← expect .RBRACKET ts
    .ok ({ name := nameTok.value, type := mapColumnType typeTok.value,
           rawType := some typeTok.value, settings := settings }, ts)
  else
    .ok ({ name := nameTok.value, type := mapColumnType typeTok.value,
           rawType := some typeTok.value, settings := settings0 }, ts)

/-- Parenthesised column list of an index entry. -/
def parseIndexEntryCols : Nat → List Token → List String →
    Except ParserError (List String × List Token)
  | 0, _, _ => .error fuelError
  | fuel + 1, ts, acc =>
    if !(pcheck .RPAREN ts) && !(isAtEnd ts) then do
      let (t, ts) ← expect .IDENTIFIER ts
      let ts := if pcheck .COMMA ts then ts.tail else ts
      parseIndexEntryCols fuel ts (acc ++ [t.value])
    else .ok (acc, ts)

/-- Bracketed settings of an index entry. The source applies two
independent if statements per setting name, for unique and for name. -/
def parseIndexSettings : Nat → List Token → Index →
    Except ParserError (Index × List Token)
  | 0, _, _ => .error fuelError
  | fuel + 1, ts, idx =>
    if !(pcheck .RBRACKET ts) && !(isAtEnd ts) then
      match ts with
      | tok :: rest =>
        let s := jsToLower tok.value
        let idx1 := if s == "unique" then { idx with unique := some true } else idx
        if s == "name" then
          let rest := if pcheck .COLON rest then rest.tail else rest
          match expect .STRING rest with
          | .error e => .error e
          | .ok (t, rest') =>
            parseIndexSettings fuel (if pcheck .COMMA rest' then rest'.tail else rest')
              { idx1 with name := some t.value }
        else
          parseIndexSettings fuel (if pcheck .COMMA rest then rest.tail else rest) idx1
      | [] => .error jsUndefinedError
    else .ok (idx, ts)

/-- Entry loop of Parser.parseIndexes. An iteration that begins with
neither a parenthesis nor an identifier nor a bracket consumes no token;
in the source that is an infinite loop, here it exhausts the fuel. -/
def parseIndexesLoop : Nat → List Token → List Index →
    Except ParserError (List Index × List Token)
  | 0, _, _ => .error fuelError
  | fuel + 1, ts, acc =>
    if !(pcheck .RBRACE ts) && !(isAtEnd ts) then do
      let (cols, ts) ←
        if pcheck .LPAREN ts then do
          let (cols, ts) ← parseIndexEntryCols fuel ts.tail []
          let (_, ts) ← expect .RPAREN ts
          pure (cols, ts)
        else if pcheck .IDENTIFIER ts then do
          let (t, ts) ← expect .IDENTIFIER ts
          pure ([t.value], ts)
        else pure (([] : List String), ts)
      let idx0 : Index := { columns := cols }
      let (idx, ts) ←
        if pcheck .LBRACKET ts then do
          let (idx, ts) ← parseIndexSettings fuel ts.tail idx0
          let (_, ts) ← expect .RBRACKET ts
          pure (idx, ts)
        else pure (idx0, ts)
      parseIndexesLoop fuel (skipNewlines ts) (acc ++ [idx])
    else .ok (acc, ts)

/-- Parser.parseIndexes. -/
def parseIndexes (fuel : Nat) (ts : List Token) :
    Except ParserError (List Index × List Token) := do
  let (_, ts) ← expect .INDEXES ts
  let (_, ts) ← expect .LBRACE ts
  let (idxs, ts) ← parseIndexesLoop fuel (skipNewlines ts) []
  let (_, ts) ← expect .RBRACE ts
  .ok (idxs, ts)

/-- Parser.parseNote. -/
def parseNote (ts : List Token) : Except ParserError (String × List Token) := do
  let (_, ts) ← expect .NOTE ts
  let ts := if pcheck .COLON ts then ts.tail else ts
  let (t, ts) ← expect .STRING ts
  .ok (t.value, ts)

/-- Body loop of Parser.parseTable: indexes blocks, notes, columns;
any other token is skipped by a single advance. -/
def parseTableBody : Nat → List Token → Table → Except ParserError (Table × List Token)
  | 0, _, _ => .error fuelError
  | fuel + 1, ts, table =>
    if !(pcheck .RBRACE ts) && !(isAtEnd ts) then do
      let (table, ts) ←
        if pcheck .INDEXES ts then do
          let (idxs, ts) ← parseIndexes fuel ts
          pure ({ table with indexes := table.indexes ++ idxs }, ts)
        else if pcheck .NOTE ts then do
          let (n, ts) ← parseNote ts
          pure ({ table with note := some n }, ts)
        else if pcheck .IDENTIFIER ts then do
          let (c, ts) ← parseColumn fuel ts
          pure ({ table with columns := table.columns ++ [c] }, ts)
        else pure (table, ts.tail)
      parseTableBody fuel (skipNewlines ts) table
    else .ok (table, ts)

/-- Parser.parseTable. -/
def parseTable (fuel : Nat) (ts : List Token) : Except ParserError (Table × List Token) := do
  let (_, ts) ← expect .TABLE ts
  let (nameTok, ts) ← expect .IDENTIFIER ts
  let (aliasName, ts) ←
    if pcheck .AS ts then do
      let ts := ts.tail
      let (t, ts) ← expect .IDENTIFIER ts
      pure (some t.value, ts)
    else pure ((none : Option String), ts)
  let (_, ts) ← expect .LBRACE ts
  let (table, ts) ← parseTableBody fuel (skipNewlines ts)
    { name := nameTok.value, aliasName := aliasName, columns := [], indexes := [] }
  let (_, ts) ← expect .RBRACE ts
  .ok (table, ts)

/-- Value loop of Parser.parseEnum. -/
def parseEnumLoop : Nat → List Token → List EnumValue →
    Except ParserError (List EnumValue × List Token)
  | 0, _, _ => .error fuelError
  | fuel + 1, ts, values =>
    if !(pcheck .RBRACE ts) && !(isAtEnd ts) then do
      let (t, ts) ← expect .IDENTIFIER ts
      let (note, ts) ←
        if pcheck .LBRACKET ts then do
          let ts := ts.tail
          let (note, ts) ←
            if (ts.head?.map (fun tk => jsToLower tk.value)) == some "note" then do
              let ts := ts.tail
              let ts := if pcheck .COLON ts then ts.tail else ts
              let (s, ts) ← expect .STRING ts
              pure (some s.value, ts)
            else pure ((none : Option String), ts)
          let (_, ts) ← expect .RBRACKET ts
          pure (note, ts)
        else pure ((none : Option String), ts)
      parseEnumLoop fuel (skipNewlines ts) (values ++ [⟨t.value, note⟩])
    else .ok (values, ts)

/-- Parser.parseEnum. -/
def parseEnum (fuel : Nat) (ts : List Token) : Except ParserError (DbEnum × List Token) := do
  let (_, ts) ← expect .ENUM ts
  let (nameTok, ts) ← expect .IDENTIFIER ts
  let (_, ts) ← expect .LBRACE ts
  let (values, ts) ← parseEnumLoop fuel (skipNewlines ts) []
  let (_, ts) ← expect .RBRACE ts
  .ok ({ name := nameTok.value, values := values }, ts)

/-- Member loop of Parser.parseTableGroup. -/
def parseTableGroupLoop : Nat → List Token → List String →
    Except ParserError (List String × List Token)
  | 0, _, _ => .error fuelError
  | fuel + 1, ts, acc =>
    if !(pcheck .RBRACE ts) && !(isAtEnd ts) then do
      let (t, ts) ← expect .IDENTIFIER ts
      parseTableGroupLoop fuel (skipNewlines ts) (acc ++ [t.value])
    else .ok (acc, ts)

/-- Parser.parseTableGroup. -/
def parseTableGroup (fuel : Nat) (ts : List Token) :
    Except ParserError (TableGroup × List Token) := do
  let (_, ts) ← expect .TABLEGROUP ts
  let (nameTok, ts) ← expect .IDENTIFIER ts
  let (_, ts) ← expect .LBRACE ts
  let (tables, ts) ← parseTableGroupLoop fuel (skipNewlines ts) []
  let (_, ts) ← expect .RBRACE ts
  .ok ({ name := nameTok.value, tables := tables }, ts)

/-- Top-level loop of Parser.parse: skip newlines, dispatch on the keyword,
fail hard on anything else. -/
def parseTop : Nat → List Token → DatabaseSchema → Except ParserError DatabaseSchema
  | 0, _, _ => .error fuelError
  | fuel + 1, ts, schema =>
    if isAtEnd ts then .ok schema
    else
      let ts := skipNewlines ts
      if isAtEnd ts then .ok schema
      else if pcheck .TABLE ts then do
        let (t, ts) ← parseTable fuel ts
        parseTop fuel ts { schema with tables := schema.tables ++ [t] }
      else if pcheck .ENUM ts then do
        let (e, ts) ← parseEnum fuel ts
        parseTop fuel ts { schema with enums := schema.enums ++ [e] }
      else if pcheck .REF ts then do
        let (r, ts) ← parseRef ts
        parseTop fuel ts { schema with relations := schema.relations ++ [r] }
      else if pcheck .TABLEGROUP ts then do
        let (tg, ts) ← parseTableGroup fuel ts
        parseTop fuel ts { schema with tableGroups := schema.tableGroups ++ [tg] }
      else
        match ts.head? with
        | some tok =>
          .error ⟨"Unexpected token " ++ typeName tok.type ++ " (\"" ++ tok.value ++ "\")",
                  tok.line, tok.column, some tok.value⟩
        | none => .error jsUndefinedError

/-- parseDSL: tokenize and parse. The fuel bound exceeds the token count,
and every parser loop iteration consumes at least one token. -/
def parseDSL (input : String) : Except ParserError DatabaseSchema :=
  let tokens := tokenize input
  parseTop (tokens.length + 1) tokens
    { tables := [], relations := [], enums := [], tableGroups := [] }

-- ─────────────────────────────────────────────────────────────
-- Graph model types (core/graph/types)
-- ─────────────────────────────────────────────────────────────

/-- A 2D point. -/
structure Point where
  x : Int
  y : Int
deriving DecidableEq, Repr

/-- A 2D size. -/
structure Size where
  width : Int
  height : Int
deriving DecidableEq, Repr

/-- A bounding box (Point and Size merged, as in the source interface). -/
structure Bounds where
  x : Int
  y : Int
  width : Int
  height : Int
deriving DecidableEq, Repr

/-- A column inside a table node. -/
structure ColumnNode where
  id : String
  name : String
  type : String
  isPrimaryKey : Bool
  isForeignKey : Bool
  isUnique : Bool
  isNullable : Bool
  offsetY : Int
deriving DecidableEq, Repr

/-- A table node of the visual graph. -/
structure TableNode where
  id : String
  name : String
  schema : Option String := none
  position : Point
  size : Size
  columns : List ColumnNode
  group : Option String := none
  color : Option String := none
  note : Option String := none
  selected : Option Bool := none
  collapsed : Option Bool := none
deriving DecidableEq, Repr

/-- An edge endpoint (anchor is rendering-only and never set by the core). -/
structure EdgeEndpoint where
  nodeId : String
  columnId : String
  anchor : Option Point := none
deriving DecidableEq, Repr

/-- An edge of the visual graph; type holds the EdgeType string union.
The label/points fields are carried; the rendering-only curvature field is
never set by the core and is omitted. -/
structure Edge where
  id : String
  efrom : EdgeEndpoint
  eto : EdgeEndpoint
  type : String
  label : Option String := none
  points : Option (List Point) := none
  selected : Option Bool := none
deriving DecidableEq, Repr

/-- A table group of the visual graph. -/
structure GraphTableGroup where
  id : String
  name : String
  color : Option String := none
  collapsed : Option Bool := none
  selected : Option Bool := none
  nodeIds : List String
  bounds : Option Bounds := none
deriving DecidableEq, Repr

/-- A sticky note; the core only ever produces an empty list of these, so
just the identity-relevant fields are modelled. -/
structure StickyNote where
  id : String := ""
  text : String := ""
  position : Point := ⟨0, 0⟩
  size : Size := ⟨0, 0⟩
deriving DecidableEq, Repr

/-- The visual graph (metadata is rendering-only and omitted). -/
structure Graph where
  nodes : List TableNode
  edges : List Edge
  groups : List GraphTableGroup
  notes : List StickyNote := []
  bounds : Option Bounds := none
deriving DecidableEq, Repr

/-- Node sizing constants (NODE_DEFAULTS). -/
def headerHeightD : Int := 32

/-- Height per column row. -/
def columnHeightD : Int := 24

/-- Minimum node width. -/
def minWidthD : Int := 180

/-- Padding inside a node. -/
def paddingD : Int := 8

/-- Character width estimate for sizing. -/
def charWidthD : Int := 8

-- ─────────────────────────────────────────────────────────────
-- Graph builder (core/graph/builder)
-- ─────────────────────────────────────────────────────────────

/-- The set of table.column strings appearing as the from endpoint of some
relation (the fkColumns Set; list membership models Set membership). -/
def fkColumns (schema : DatabaseSchema) : List String :=
  schema.relations.map (fun r => r.rfrom.table ++ "." ++ r.rfrom.column)

/-- buildColumnNode. -/
def buildColumnNode (tableName : String) (col : Column) (fkCols : List String)
    (offsetY : Int) : ColumnNode :=
  let colKey := tableName ++ "." ++ col.name
  { id := colKey
    name := col.name
    type := col.rawType.getD col.type
    isPrimaryKey := col.settings.primaryKey.getD false
    isForeignKey := fkCols.contains colKey
    isUnique := col.settings.unique.getD false
    isNullable := !(col.settings.notNull.getD false)
    offsetY := offsetY }

/-- Column loop of buildTableNode, accumulating offsetY by columnHeight. -/
def buildColumns (tableName : String) (fkCols : List String) :
    List Column → Int → List ColumnNode
  | [], _ => []
  | c :: rest, offsetY =>
    buildColumnNode tableName c fkCols offsetY ::
      buildColumns tableName fkCols rest (offsetY + columnHeightD)

/-- computeNodeSize: monospace-heuristic width and per-column height. -/
def computeNodeSize (table : Table) (columns : List ColumnNode) : Size :=
  let maxTextLen : Int :=
    columns.foldl (fun m c => max m ((c.name.length : Int) + (c.type.length : Int) + 3))
      (table.name.length : Int)
  { width := max minWidthD (maxTextLen * charWidthD + paddingD * 2)
    height := headerHeightD + (columns.length : Int) * columnHeightD + paddingD }

/-- buildTableNode. -/
def buildTableNode (fkCols : List String) (table : Table) : TableNode :=
  let columns := buildColumns table.name fkCols table.columns headerHeightD
  { id := table.name
    name := table.name
    schema := table.schema
    position := ⟨0, 0⟩
    size := computeNodeSize table columns
    columns := columns
    note := table.note
    collapsed := some false
    selected := some false }

/-- buildEdge. -/
def buildEdge (rel : Relation) : Edge :=
  let id := rel.name.getD
    (rel.rfrom.table ++ "." ++ rel.rfrom.column ++ "->" ++ rel.rto.table ++ "." ++ rel.rto.column)
  { id := id
    efrom := { nodeId := rel.rfrom.table, columnId := rel.rfrom.table ++ "." ++ rel.rfrom.column }
    eto := { nodeId := rel.rto.table, columnId := rel.rto.table ++ "." ++ rel.rto.column }
    type := rel.type
    selected := some false }

/-- Set the group of the first node with the given name (Array.find
followed by a mutation of that node). -/
def setNodeGroup : List TableNode → String → String → List TableNode
  | [], _, _ => []
  | n :: rest, tableName, groupName =>
    if n.name == tableName then { n with group := some groupName } :: rest
    else n :: setNodeGroup rest tableName groupName

/-- Group assignment pass of buildGraph: for each IR group in order, each
member table's node gets its group field set (a later group wins). -/
def assignGroups (nodes : List TableNode) (tgs : List TableGroup) : List TableNode :=
  tgs.foldl (fun ns tg => tg.tables.foldl (fun ns tn => setNodeGroup ns tn tg.name) ns) nodes

/-- buildGraph: one node per table, one edge per relation, one graph group
per IR table group; no positions, no bounds. -/
def buildGraph (schema : DatabaseSchema) : Graph :=
  let fkCols := fkColumns schema
  let nodes := schema.tables.map (buildTableNode fkCols)
  let edges := schema.relations.map buildEdge
  let groups := schema.tableGroups.map (fun tg =>
    ({ id := tg.name, name := tg.name, nodeIds := tg.tables,
       collapsed := some false, selected := some false } : GraphTableGroup))
  { nodes := assignGroups nodes schema.tableGroups, edges := edges, groups := groups, notes := [] }

/-- Per-group body of computeGroupBounds: bounding box over member node
rectangles, padded, with a header band above; empty groups get no bounds.
The source seeds the running min/max at plus/minus Infinity, which over a
nonempty list equals folding from the first rectangle. -/
def groupWithBounds (nodes : List TableNode) (groupPadding : Int)
    (group : GraphTableGroup) : GraphTableGroup :=
  let groupNodes := nodes.filter (fun n => group.nodeIds.contains n.id)
  match groupNodes with
  | [] => { group with bounds := none }
  | g0 :: gs =>
    let minX := gs.foldl (fun m n => min m n.position.x) g0.position.x
    let minY := gs.foldl (fun m n => min m n.position.y) g0.position.y
    let maxX := gs.foldl (fun m n => max m (n.position.x + n.size.width))
      (g0.position.x + g0.size.width)
    let maxY := gs.foldl (fun m n => max m (n.position.y + n.size.height))
      (g0.position.y + g0.size.height)
    let headerHeight : Int := 28
    { group with bounds := some (Bounds.mk
        (minX - groupPadding)
        (minY - groupPadding - headerHeight)
        (maxX - minX + groupPadding * 2)
        (maxY - minY + groupPadding * 2 + headerHeight)) }

/-- computeGroupBounds: per-group bounding boxes over the graph's nodes. -/
def computeGroupBounds (graph : Graph) (groupPadding : Int := 20) : List GraphTableGroup :=
  graph.groups.map (groupWithBounds graph.nodes groupPadding)

/-- computeGraphBounds: recompute group bounds (at the default group
padding), then the whole-graph bounds over node rectangles and group
rectangles, padded; an empty node list gives zero bounds. -/
def computeGraphBounds (graph : Graph) (padding : Int := 40) : Graph :=
  let updatedGroups := computeGroupBounds graph
  match graph.nodes with
  | [] => { graph with groups := updatedGroups, bounds := some ⟨0, 0, 0, 0⟩ }
  | n0 :: ns =>
    let minX0 := ns.foldl (fun m n => min m n.position.x) n0.position.x
    let minY0 := ns.foldl (fun m n => min m n.position.y) n0.position.y
    let maxX0 := ns.foldl (fun m n => max m (n.position.x + n.size.width))
      (n0.position.x + n0.size.width)
    let maxY0 := ns.foldl (fun m n => max m (n.position.y + n.size.height))
      (n0.position.y + n0.size.height)
    let gbs := updatedGroups.filterMap (fun g => g.bounds)
    let minX := gbs.foldl (fun m b => min m b.x) minX0
    let minY := gbs.foldl (fun m b => min m b.y) minY0
    let maxX := gbs.foldl (fun m b => max m (b.x + b.width)) maxX0
    let maxY := gbs.foldl (fun m b => max m (b.y + b.height)) maxY0
    { graph with
      groups := updatedGroups
      bounds := some (Bounds.mk
        (minX - padding)
        (minY - padding)
        (maxX - minX + padding * 2)
        (maxY - minY + padding * 2)) }

-- ─────────────────────────────────────────────────────────────
-- Grid layout engine (core/graph/layout)
-- ─────────────────────────────────────────────────────────────

/-- Layout options; all fields optional, merged over the defaults. -/
structure LayoutOptions where
  direction : Option String := none
  nodeSpacingX : Option Int := none
  nodeSpacingY : Option Int := none
  padding : Option Int := none
  algorithm : Option String := none
deriving DecidableEq, Repr

/-- Fully resolved layout options. -/
structure ResolvedLayoutOptions where
  direction : String
  nodeSpacingX : Int
  nodeSpacingY : Int
  padding : Int
  algorithm : String
deriving DecidableEq, Repr

/-- DEFAULT_OPTIONS of the layout module. -/
def defaultLayoutOptions : ResolvedLayoutOptions :=
  { direction := "TB", nodeSpacingX := 60, nodeSpacingY := 40,
    padding := 40, algorithm := "dagre" }

/-- Spread merge of user options over the defaults. -/
def resolveOptions : Option LayoutOptions → ResolvedLayoutOptions
  | none => defaultLayoutOptions
  | some o =>
    { direction := o.direction.getD defaultLayoutOptions.direction
      nodeSpacingX := o.nodeSpacingX.getD defaultLayoutOptions.nodeSpacingX
      nodeSpacingY := o.nodeSpacingY.getD defaultLayoutOptions.nodeSpacingY
      padding := o.padding.getD defaultLayoutOptions.padding
      algorithm := o.algorithm.getD defaultLayoutOptions.algorithm }

/-- Math.ceil of Math.sqrt on a natural number. -/
def natCeilSqrt (n : Nat) : Nat :=
  if Nat.sqrt n * Nat.sqrt n == n then Nat.sqrt n else Nat.sqrt n + 1

/-- Placement loop of the grid layout: left to right, top to bottom, with
the row height tracking the tallest node of the current row. -/
def gridPlace (sX sY pad : Int) (columns : Nat) :
    List TableNode → Int → Int → Int → Nat → List TableNode
  | [], _, _, _, _ => []
  | n :: rest, x, y, rowHeight, col =>
    let newNode := { n with position := (⟨x, y⟩ : Point) }
    let rowHeight := max rowHeight n.size.height
    let col := col + 1
    if col ≥ columns then
      newNode :: gridPlace sX sY pad columns rest pad (y + rowHeight + sY) 0 0
    else
      newNode :: gridPlace sX sY pad columns rest (x + n.size.width + sX) y rowHeight col

/-- The grid layout engine's layout function: ignores edges, places nodes
in ceil(sqrt(n)) columns, then recomputes bounds. -/
def gridLayout (graph : Graph) (options : Option LayoutOptions := none) : Graph :=
  let opts := resolveOptions options
  let columns := natCeilSqrt graph.nodes.length
  let updatedNodes := gridPlace opts.nodeSpacingX opts.nodeSpacingY opts.padding columns
    graph.nodes opts.padding opts.padding 0 0
  computeGraphBounds { graph with nodes := updatedNodes } opts.padding

-- ─────────────────────────────────────────────────────────────
-- Validator (core/ir/validator)
-- ─────────────────────────────────────────────────────────────

/-- Per-column loop of the table checks: duplicate column names (error),
primary key presence, unknown enum references (warning). Returns the
accumulated findings, the column-name set, and the primary-key flag. -/
def checkColumnsLoop (tableName : String) (enumNames : List String) :
    List Column → List String → Bool → List ValidationError × List String × Bool
  | [], colNames, hasPK => ([], colNames, hasPK)
  | col :: rest, colNames, hasPK =>
    let dupErrs : List ValidationError :=
      if colNames.contains col.name then
        [⟨"error", "Duplicate column \"" ++ col.name ++ "\" in table \"" ++ tableName ++ "\"",
          some ⟨some tableName, some col.name, none⟩⟩]
      else []
    let colNames := if colNames.contains col.name then colNames else colNames ++ [col.name]
    let hasPK := hasPK || col.settings.primaryKey == some true
    let enumErrs : List ValidationError :=
      if col.type == "enum" && col.settings.enumValues == none then
        match col.rawType with
        | some enumRef =>
          if !(enumNames.contains enumRef) then
            [⟨"warning", "Column \"" ++ col.name ++ "\" references unknown enum \""
              ++ enumRef ++ "\"", some ⟨some tableName, some col.name, none⟩⟩]
          else []
        | none => []
      else []
    let (restErrs, finalCols, finalPK) := checkColumnsLoop tableName enumNames rest colNames hasPK
    (dupErrs ++ enumErrs ++ restErrs, finalCols, finalPK)

/-- Per-table loop of validateSchema: duplicate table names via a running
set, then the per-column checks, then the missing-primary-key warning.
Returns the findings, the final table-name set, and the per-table
column-name map (later entries shadow earlier ones on lookup, as Map.set
overwrites). -/
def checkTablesLoop (enumNames : List String) :
    List Table → List String → List (String × List String) →
    List ValidationError × List String × List (String × List String)
  | [], tableNames, colMap => ([], tableNames, colMap)
  | table :: rest, tableNames, colMap =>
    let dupErrs : List ValidationError :=
      if tableNames.contains table.name then
        [⟨"error", "Duplicate table name: \"" ++ table.name ++ "\"",
          some ⟨some table.name, none, none⟩⟩]
      else []
    let tableNames := if tableNames.contains table.name then tableNames
      else tableNames ++ [table.name]
    let (colErrs, colNames, hasPK) := checkColumnsLoop table.name enumNames table.columns [] false
    let colMap := colMap ++ [(table.name, colNames)]
    let pkWarn : List ValidationError :=
      if !hasPK then
        [⟨"warning", "Table \"" ++ table.name ++ "\" has no primary key",
          some ⟨some table.name, none, none⟩⟩]
      else []
    let (restErrs, finalNames, finalMap) := checkTablesLoop enumNames rest tableNames colMap
    (dupErrs ++ colErrs ++ pkWarn ++ restErrs, finalNames, finalMap)

/-- Map.get over the column map: the value of the last set entry. -/
def mapGetLast (m : List (String × List String)) (k : String) : Option (List String) :=
  m.foldl (fun acc p => if p.1 == k then some p.2 else acc) none

/-- Relation checks of validateSchema: each endpoint's table must exist
(error), and when it exists the column must exist in it (error); the two
endpoints are checked independently. -/
def relationErrors (tableNames : List String) (colMap : List (String × List String))
    (rel : Relation) : List ValidationError :=
  let fromLoc : ErrLocation :=
    ⟨none, none, some (rel.name.getD (rel.rfrom.table ++ "." ++ rel.rfrom.column))⟩
  let toLoc : ErrLocation :=
    ⟨none, none, some (rel.name.getD (rel.rto.table ++ "." ++ rel.rto.column))⟩
  let fromErrs : List ValidationError :=
    if !(tableNames.contains rel.rfrom.table) then
      [⟨"error", "Relation references non-existent table \"" ++ rel.rfrom.table ++ "\"",
        some fromLoc⟩]
    else
      match mapGetLast colMap rel.rfrom.table with
      | some cols =>
        if !(cols.contains rel.rfrom.column) then
          [⟨"error", "Relation references non-existent column \"" ++ rel.rfrom.table
            ++ "." ++ rel.rfrom.column ++ "\"", some fromLoc⟩]
        else []
      | none => []
  let toErrs : List ValidationError :=
    if !(tableNames.contains rel.rto.table) then
      [⟨"error", "Relation references non-existent table \"" ++ rel.rto.table ++ "\"",
        some toLoc⟩]
    else
      match mapGetLast colMap rel.rto.table with
      | some cols =>
        if !(cols.contains rel.rto.column) then
          [⟨"error", "Relation references non-existent column \"" ++ rel.rto.table
            ++ "." ++ rel.rto.column ++ "\"", some toLoc⟩]
        else []
      | none => []
  fromErrs ++ toErrs

/-- Table group checks: unknown member tables are warnings. -/
def groupErrors (tableNames : List String) (g : TableGroup) : List ValidationError :=
  g.tables.filterMap fun tName =>
    if !(tableNames.contains tName) then
      some ⟨"warning", "TableGroup \"" ++ g.name ++ "\" references unknown table \""
        ++ tName ++ "\"", none⟩
    else none

/-- validateSchema: accumulate all findings; valid iff no error entries. -/
def validateSchema (schema : DatabaseSchema) : ValidationResult :=
  let enumNames := schema.enums.map (fun e => e.name)
  let (tableErrs, tableNames, colMap) := checkTablesLoop enumNames schema.tables [] []
  let relErrs := (schema.relations.map (relationErrors tableNames colMap)).flatten
  let grpErrs := (schema.tableGroups.map (groupErrors tableNames)).flatten
  let errors := tableErrs ++ relErrs ++ grpErrs
  { valid := (errors.filter (fun e => e.type == "error")).length == 0, errors := errors }

-- ─────────────────────────────────────────────────────────────
-- Schema diff (core/utils/schemaDiff)
-- ─────────────────────────────────────────────────────────────

/-- Column diff entry. -/
structure ColumnDiff where
  name : String
  action : String
  oldType : Option String := none
  newType : Option String := none
  changes : Option (List String) := none
deriving DecidableEq, Repr

/-- Table diff entry. -/
structure TableDiff where
  name : String
  action : String
  columnDiffs : List ColumnDiff
  changes : Option (List String) := none
deriving DecidableEq, Repr

/-- Relation diff entry. -/
structure RelationDiff where
  id : String
  action : String
  description : String
deriving DecidableEq, Repr

/-- Structured diff of two schemas. -/
structure SchemaDiff where
  tables : List TableDiff
  relations : List RelationDiff
  hasChanges : Bool
deriving DecidableEq, Repr

/-- Map lookup keyed by name: the Map constructor keeps the last entry for
a duplicated key. -/
def tableMapGet (l : List Table) (k : String) : Option Table :=
  l.foldl (fun acc t => if t.name == k then some t else acc) none

/-- Map lookup for columns by name, last entry wins. -/
def colMapGet (l : List Column) (k : String) : Option Column :=
  l.foldl (fun acc c => if c.name == k then some c else acc) none

/-- Key set union preserving first-occurrence order, as iterating a Set
built from concatenated key lists does. -/
def dedupFirst : List String → List String
  | [] => []
  | x :: xs => x :: (dedupFirst xs).filter (fun y => y ≠ x)

/-- Resolved display type of a column: rawType when present else type. -/
def displayType (c : Column) : String := c.rawType.getD c.type

/-- Common-table column comparison of diffSchemas: one ColumnDiff per
column name, plus the flag that feeds tableModified. Names missing from
both maps (impossible for members of the key set) produce nothing. -/
def diffColumnName (oldT newT : Table) (colName : String) : Option (ColumnDiff × Bool) :=
  match colMapGet oldT.columns colName, colMapGet newT.columns colName with
  | none, some c => some ({ name := colName, action := "added", newType := some (displayType c) }, true)
  | some c, none => some ({ name := colName, action := "removed", oldType := some (displayType c) }, true)
  | some oc, some nc =>
    let changes : List String :=
      (if displayType oc ≠ displayType nc then
        ["Type changed from " ++ displayType oc ++ " to " ++ displayType nc] else [])
      ++ (if oc.settings.primaryKey ≠ nc.settings.primaryKey then
        [if nc.settings.primaryKey == some true then "Set as Primary Key"
         else "Removed Primary Key"] else [])
      ++ (if oc.settings.notNull ≠ nc.settings.notNull then
        [if nc.settings.notNull == some true then "Set as Not Null"
         else "Set as Nullable"] else [])
    if changes ≠ [] then
      some ({ name := colName, action := "modified", oldType := some (displayType oc),
              newType := some (displayType nc), changes := some changes }, true)
    else
      some ({ name := colName, action := "unchanged" }, false)
  | none, none => none

/-- Column loop of the common-table case, in key-set order, threading the
tableModified flag. -/
def diffColsLoop (oldT newT : Table) : List String → List ColumnDiff × Bool
  | [] => ([], false)
  | n :: rest =>
    let (ds, m) := diffColsLoop oldT newT rest
    match diffColumnName oldT newT n with
    | none => (ds, m)
    | some (cd, flag) => (cd :: ds, flag || m)

/-- Per-table-name diff step of diffSchemas. -/
def diffTableName (oldS newS : DatabaseSchema) (tableName : String) : Option TableDiff :=
  match tableMapGet oldS.tables tableName, tableMapGet newS.tables tableName with
  | none, some t =>
    some { name := tableName, action := "added",
           columnDiffs := t.columns.map (fun c =>
             { name := c.name, action := "added", newType := some (displayType c) }) }
  | some t, none =>
    some { name := tableName, action := "removed",
           columnDiffs := t.columns.map (fun c =>
             { name := c.name, action := "removed", oldType := some (displayType c) }) }
  | some oldT, some newT =>
    let allColNames := dedupFirst (oldT.columns.map (fun c => c.name)
      ++ newT.columns.map (fun c => c.name))
    let (columnDiffs, tableModified) := diffColsLoop oldT newT allColNames
    some { name := tableName, action := if tableModified then "modified" else "unchanged",
           columnDiffs := columnDiffs }
  | none, none => none

/-- Relation identity string used by the diff. -/
def relDiffId (r : Relation) : String :=
  r.rfrom.table ++ "." ++ r.rfrom.column ++ "->" ++ r.rto.table ++ "." ++ r.rto.column

/-- Last-wins lookup of a relation by its identity string. -/
def relMapGet (l : List Relation) (k : String) : Option Relation :=
  l.foldl (fun acc r => if relDiffId r == k then some r else acc) none

/-- diffSchemas: structural diff over table names, column names and
relation identity strings. -/
def diffSchemas (oldS newS : DatabaseSchema) : SchemaDiff :=
  let allTableNames := dedupFirst (oldS.tables.map (fun t => t.name)
    ++ newS.tables.map (fun t => t.name))
  let tableDiffs := allTableNames.filterMap (diffTableName oldS newS)
  let allRelIds := dedupFirst (oldS.relations.map relDiffId ++ newS.relations.map relDiffId)
  let relationDiffs := allRelIds.map fun id =>
    match relMapGet oldS.relations id, relMapGet newS.relations id with
    | none, some _ => ({ id := id, action := "added", description := id } : RelationDiff)
    | some _, none => { id := id, action := "removed", description := id }
    | _, _ => { id := id, action := "unchanged", description := id }
  let hasChanges := tableDiffs.any (fun t => t.action ≠ "unchanged")
    || relationDiffs.any (fun r => r.action ≠ "unchanged")
  { tables := tableDiffs, relations := relationDiffs, hasChanges := hasChanges }

-- ─────────────────────────────────────────────────────────────
-- Predicates used by the claim statements
-- ─────────────────────────────────────────────────────────────

/-- Rectangle of a node, from its position and size. -/
def nodeRect (n : TableNode) : Bounds :=
  ⟨n.position.x, n.position.y, n.size.width, n.size.height⟩

/-- Intersection of two axis-aligned rectangles taken as closed point sets;
disproving even this closed form is the strongest reading of the no-overlap
claims. -/
def rectsIntersect (a b : Bounds) : Prop :=
  a.x ≤ b.x + b.width ∧ b.x ≤ a.x + a.width ∧ a.y ≤ b.y + b.height ∧ b.y ≤ a.y + a.height

/-- Decidability of rectangle intersection. -/
instance (a b : Bounds) : Decidable (rectsIntersect a b) := by
  unfold rectsIntersect
  infer_instance

/-- Characters on which the main lexer dispatch has a specific case:
whitespace, newline, the three quotes, digits, identifier characters, the
punctuation and relation-operator characters, and the slash (which can
begin a comment and otherwise falls through to the default case). A
character outside this set reaches the default switch case of tokenize. -/
def isUnrecognizedChar (c : Char) : Bool :=
  !(c == ' ' || c == '\t' || c == '\r' || c == '\n'
    || c == '\'' || c == '\"' || c == '\x60'
    || c.isDigit || c.isAlpha || c == '_'
    || c == '\x7b' || c == '\x7d' || c == '[' || c == ']' || c == '(' || c == ')'
    || c == ',' || c == ':' || c == '.' || c == '-' || c == '<' || c == '>'
    || c == '/')

/-- Modelled from the spec: the number pattern of section 4.1, the regular
expression of one or more digits optionally followed by a dot and one or
more digits; used only to compare the specified pattern against the
lexer's actual NUMBER tokens. -/
def matchesNumberPattern (s : String) : Bool :=
  let p := s.data.span Char.isDigit
  !p.1.isEmpty &&
    (match p.2 with
     | [] => true
     | '.' :: ts => !ts.isEmpty && ts.all Char.isDigit
     | _ => false)

/-- Shape actually guaranteed for NUMBER token values by readNumber: a
leading digit followed by digits and dots in any arrangement. -/
def numberTokenShape (s : String) : Bool :=
  match s.data with
  | [] => false
  | c :: _ => c.isDigit && s.data.all isNumberCh

/-- A string with no dot character. -/
def dotFreeStr (s : String) : Bool := !(s.data.contains '.')

/-- All table, column and relation-from names of a schema are dot-free;
under this condition the builder's string-keyed foreign-key set agrees
with membership of the (table, column) pair among from endpoints. -/
def dotFreeSchema (schema : DatabaseSchema) : Prop :=
  (∀ t ∈ schema.tables, dotFreeStr t.name = true ∧
    ∀ c ∈ t.columns, dotFreeStr c.name = true) ∧
  (∀ r ∈ schema.relations, dotFreeStr r.rfrom.table = true ∧
    dotFreeStr r.rfrom.column = true)

/-- A validation message mentioning the phrase non-existent table. -/
def mentionsNonExistentTable (m : String) : Prop :=
  ∃ p q, m = p ++ ("non-existent table" ++ q)

-- ─────────────────────────────────────────────────────────────
-- Concrete inputs used by counterexamples and witnesses
-- ─────────────────────────────────────────────────────────────

/-- The posts table of the specification's FK-marking example. -/
def postsTable : Table :=
  { name := "posts"
    columns := [{ name := "id", type := "int", settings := { primaryKey := some true } },
                { name := "author_id", type := "int", settings := {} }]
    indexes := [] }

/-- The users table of the specification's FK-marking example. -/
def usersTable : Table :=
  { name := "users"
    columns := [{ name := "id", type := "int", settings := { primaryKey := some true } }]
    indexes := [] }

/-- The relation posts.author_id to users.id of the FK-marking example. -/
def postsUsersRel : Relation :=
  { rfrom := ⟨"posts", "author_id"⟩, rto := ⟨"users", "id"⟩, type := "many-to-one" }

/-- Schema of the FK-marking example. -/
def postsUsersSchema : DatabaseSchema :=
  { tables := [postsTable, usersTable], relations := [postsUsersRel],
    enums := [], tableGroups := [] }

/-- The node built for the posts table of the FK-marking example. -/
def postsNode : TableNode := buildTableNode (fkColumns postsUsersSchema) postsTable

/-- The node built for the users table of the FK-marking example. -/
def usersNode : TableNode := buildTableNode (fkColumns postsUsersSchema) usersTable

/-- The column node built for posts.author_id: marked as a foreign key. -/
def authorIdCol : ColumnNode :=
  { id := "posts.author_id", name := "author_id", type := "int",
    isPrimaryKey := false, isForeignKey := true, isUnique := false,
    isNullable := true, offsetY := 56 }

/-- Schema whose names contain dots, keying the FK set ambiguously: the
table is named a.b with column c, while the relation's from endpoint is
table a, column b.c; both produce the key string a.b.c. -/
def dottedSchema : DatabaseSchema :=
  { tables := [{ name := "a.b",
                 columns := [{ name := "c", type := "int", settings := {} }],
                 indexes := [] }]
    relations := [{ rfrom := ⟨"a", "b.c"⟩, rto := ⟨"a", "b.c"⟩, type := "one-to-many" }]
    enums := [], tableGroups := [] }

/-- The unterminated-bracket input of the error-locality claim. -/
def c7input : String := "Table users \x7b\n  id int [pk\n\x7d"

/-- The ParserError actually thrown on the unterminated-bracket input: the
bracket-settings loop consumes the newline and the closing brace as setting
names, so the missing bracket is noticed at the EOF token on line 3. -/
def c7error : ParserError :=
  { message := "Expected RBRACKET but got EOF (\"\")", line := 3, column := 2, value := some "" }

/-- A Ref statement with a non-operator token in operator position. -/
def c10input : String := "Ref: a.b x c.d"

/-- The schema parseDSL returns for that input: the x is consumed as the
operator and the relation type defaults to one-to-many. -/
def c10schema : DatabaseSchema :=
  { tables := []
    relations := [{ rfrom := ⟨"a", "b"⟩, rto := ⟨"c", "d"⟩, type := "one-to-many" }]
    enums := [], tableGroups := [] }

/-- A DSL text with one Table statement and one Ref statement. -/
def c2input : String := "Table t \x7b\n  id int\n\x7d\nRef: a.b > c.d"

/-- A relation whose two endpoints name two different absent tables. -/
def c4rel : Relation :=
  { rfrom := ⟨"x", "a"⟩, rto := ⟨"y", "b"⟩, type := "one-to-many" }

/-- Schema holding only that dangling relation. -/
def c4schema : DatabaseSchema :=
  { tables := [], relations := [c4rel], enums := [], tableGroups := [] }

/-- The schema parseDSL returns for the two-statement text c2input. -/
def c2schema : DatabaseSchema :=
  { tables := [{ name := "t"
                 columns := [{ name := "id", type := "int", rawType := some "int", settings := {} }]
                 indexes := [] }]
    relations := [{ rfrom := ⟨"a", "b"⟩, rto := ⟨"c", "d"⟩, type := "many-to-one" }]
    enums := [], tableGroups := [] }

/-- A two-node graph with positive sizes for the grid-layout witness. -/
def c1graph : Graph :=
  { nodes := [{ id := "t0", name := "t0", position := ⟨0, 0⟩, size := ⟨180, 88⟩, columns := [] },
              { id := "t1", name := "t1", position := ⟨0, 0⟩, size := ⟨180, 64⟩, columns := [] }]
    edges := [], groups := [] }

/-- Old schema of the diff witness: table t with columns id (int, primary
key) and kept (text). -/
def c8old : DatabaseSchema :=
  { tables := [{ name := "t"
                 columns := [{ name := "id", type := "int", settings := { primaryKey := some true } },
                             { name := "kept", type := "text", settings := {} }]
                 indexes := [] }]
    relations := [], enums := [], tableGroups := [] }

/-- New schema of the diff witness: the id column's type changed to bigint,
the kept column is unchanged. -/
def c8new : DatabaseSchema :=
  { tables := [{ name := "t"
                 columns := [{ name := "id", type := "bigint", settings := { primaryKey := some true } },
                             { name := "kept", type := "text", settings := {} }]
                 indexes := [] }]
    relations := [], enums := [], tableGroups := [] }

-- ─────────────────────────────────────────────────────────────
-- Theorems
-- ─────────────────────────────────────────────────────────────

-- helper lemmas
theorem setNodeGroup_core (ns : List TableNode) (tn g : String) :
    (setNodeGroup ns tn g).map (fun n => (n.id, n.name, n.columns))
      = ns.map (fun n => (n.id, n.name, n.columns)) := by
  induction ns with
  | nil => simp [setNodeGroup]
  | cons n rest ih =>
    unfold setNodeGroup
    split <;> simp [ih]

theorem setNodeGroup_length (ns : List TableNode) (tn g : String) :
    (setNodeGroup ns tn g).length = ns.length := by
  have h := setNodeGroup_core ns tn g
  have := congrArg List.length h
  simpa using this

theorem foldl_setNodeGroup_core (ts : List String) (g : String) (ns : List TableNode) :
    ((ts.foldl (fun ns tn => setNodeGroup ns tn g) ns).map (fun n => (n.id, n.name, n.columns)))
      = ns.map (fun n => (n.id, n.name, n.columns)) := by
  induction ts generalizing ns with
  | nil => rfl
  | cons t ts ih =>
    rw [List.foldl_cons, ih, setNodeGroup_core]

theorem assignGroups_core (ns : List TableNode) (tgs : List TableGroup) :
    (assignGroups ns tgs).map (fun n => (n.id, n.name, n.columns))
      = ns.map (fun n => (n.id, n.name, n.columns)) := by
  unfold assignGroups
  induction tgs generalizing ns with
  | nil => rfl
  | cons tg tgs ih =>
    rw [List.foldl_cons, ih, foldl_setNodeGroup_core]

theorem assignGroups_length (ns : List TableNode) (tgs : List TableGroup) :
    (assignGroups ns tgs).length = ns.length := by
  have := congrArg List.length (assignGroups_core ns tgs)
  simpa using this

-- C2
theorem c2_counts (schema : DatabaseSchema) (input : String) (sch : DatabaseSchema)
    (h : parseDSL input = .ok sch) :
    ((buildGraph schema).nodes.length = schema.tables.length ∧
     (buildGraph schema).edges.length = schema.relations.length) ∧
    ((buildGraph sch).nodes.length = sch.tables.length ∧
     (buildGraph sch).edges.length = sch.relations.length) := by
  have key : ∀ s : DatabaseSchema,
      (buildGraph s).nodes.length = s.tables.length ∧
      (buildGraph s).edges.length = s.relations.length := by
    intro s
    constructor
    · show (assignGroups (s.tables.map _) s.tableGroups).length = _
      rw [assignGroups_length, List.length_map]
    · simp [buildGraph]
  exact ⟨key schema, key sch⟩

/-- Witness for the count-preservation theorem at a concrete schema and a
concrete parsed text. -/
theorem c2_witness :
    parseDSL c2input = Except.ok c2schema ∧
    ((buildGraph postsUsersSchema).nodes.length = postsUsersSchema.tables.length ∧
     (buildGraph postsUsersSchema).edges.length = postsUsersSchema.relations.length) ∧
    ((buildGraph c2schema).nodes.length = c2schema.tables.length ∧
     (buildGraph c2schema).edges.length = c2schema.relations.length) :=
  ⟨by decide, c2_counts postsUsersSchema c2input c2schema (by decide)⟩

-- C7
theorem c7_counterexample : parseDSL c7input = Except.error c7error ∧ c7error.line ≠ 2 :=
  ⟨by decide, by decide⟩

theorem c7_line3 : parseDSL c7input = Except.error c7error ∧ c7error.line = 3 :=
  ⟨by decide, by decide⟩

-- C10
theorem c10_default_op (t : Token) (rest : List Token)
    (h : t.type ∉ [TokenType.REL_ONE_TO_ONE, TokenType.REL_ONE_TO_MANY,
      TokenType.REL_MANY_TO_ONE, TokenType.REL_MANY_TO_MANY]) :
    parseRelationType (t :: rest) = .ok ("one-to-many", rest) ∧
    parseDSL c10input = .ok c10schema := by
  constructor
  · unfold parseRelationType
    rcases t with ⟨ty, v, l, c⟩
    cases ty <;> simp_all
  · decide

theorem c10_witness :
    (Token.mk .IDENTIFIER "x" 1 10).type ∉ [TokenType.REL_ONE_TO_ONE, TokenType.REL_ONE_TO_MANY,
      TokenType.REL_MANY_TO_ONE, TokenType.REL_MANY_TO_MANY] ∧
    parseRelationType [Token.mk .IDENTIFIER "x" 1 10] = .ok ("one-to-many", []) :=
  ⟨by decide, (c10_default_op (Token.mk .IDENTIFIER "x" 1 10) [] (by decide)).1⟩

-- C9 helpers
theorem groupWithBounds_idem (ns : List TableNode) (p : Int) (gr : GraphTableGroup) :
    groupWithBounds ns p (groupWithBounds ns p gr) = groupWithBounds ns p gr := by
  rcases gr with ⟨gid, gname, gcolor, gcoll, gsel, gnids, gbounds⟩
  unfold groupWithBounds
  simp only [List.elem_eq_mem]
  rcases h : ns.filter (fun n => decide (n.id ∈ gnids)) with _ | ⟨g0, gs⟩ <;> simp [h]

theorem computeGraphBounds_nodes (q : Graph) (p : Int) :
    (computeGraphBounds q p).nodes = q.nodes := by
  unfold computeGraphBounds
  rcases h : q.nodes with _ | ⟨n0, ns⟩ <;> simp [h]

theorem computeGraphBounds_groups (q : Graph) (p : Int) :
    (computeGraphBounds q p).groups = computeGroupBounds q := by
  unfold computeGraphBounds
  rcases h : q.nodes with _ | ⟨n0, ns⟩ <;> simp [h]

theorem computeGroupBounds_stable (g : Graph) (p : Int) :
    computeGroupBounds (computeGraphBounds g p) = computeGroupBounds g := by
  unfold computeGroupBounds
  rw [computeGraphBounds_nodes, computeGraphBounds_groups]
  show (computeGroupBounds g).map _ = _
  unfold computeGroupBounds
  rw [List.map_map]
  apply List.map_congr_left
  intro a _
  exact groupWithBounds_idem g.nodes 20 a

theorem c9_bounds_idem (g : Graph) (p : Int) :
    (computeGraphBounds (computeGraphBounds g p) p).bounds = (computeGraphBounds g p).bounds ∧
    (computeGraphBounds (computeGraphBounds g p) p).groups = (computeGraphBounds g p).groups := by
  constructor
  · conv_lhs => rw [computeGraphBounds]
    conv_rhs => rw [computeGraphBounds]
    rw [computeGraphBounds_nodes]
    rcases h : g.nodes with _ | ⟨n0, ns⟩
    · simp [h]
    · simp only [h]
      rw [computeGroupBounds_stable]
  · rw [computeGraphBounds_groups, computeGraphBounds_groups, computeGroupBounds_stable]

theorem checkTablesLoop_names (en : List String) :
    ∀ (tables : List Table) (init : List String) (cm : List (String × List String)) (x : String),
      x ∈ (checkTablesLoop en tables init cm).2.1 ↔ (x ∈ init ∨ ∃ t ∈ tables, t.name = x) := by
  intro tables
  induction tables with
  | nil => intro init cm x; simp [checkTablesLoop]
  | cons t rest ih =>
    intro init cm x
    unfold checkTablesLoop
    rcases hh : checkColumnsLoop t.name en t.columns [] false with ⟨colErrs, colNames, hasPK⟩
    simp only [hh]
    rw [ih]
    by_cases hc : init.contains t.name = true
    · rw [if_pos hc]
      simp only [List.elem_eq_mem, decide_eq_true_eq] at hc
      constructor
      · rintro (h | ⟨t', ht', rfl⟩)
        · exact Or.inl h
        · exact Or.inr ⟨t', by simp [ht'], rfl⟩
      · rintro (h | ⟨t', ht', rfl⟩)
        · exact Or.inl h
        · rcases List.mem_cons.mp ht' with rfl | h'
          · exact Or.inl hc
          · exact Or.inr ⟨t', h', rfl⟩
    · rw [if_neg hc]
      simp only [List.mem_append, List.mem_singleton]
      constructor
      · rintro ((h | rfl) | ⟨t', ht', rfl⟩)
        · exact Or.inl h
        · exact Or.inr ⟨t, by simp, rfl⟩
        · exact Or.inr ⟨t', by simp [ht'], rfl⟩
      · rintro (h | ⟨t', ht', rfl⟩)
        · exact Or.inl (Or.inl h)
        · rcases List.mem_cons.mp ht' with rfl | h'
          · exact Or.inl (Or.inr rfl)
          · exact Or.inr ⟨t', h', rfl⟩


theorem string_append_cancel {A B X Y : List Char} (h : A ++ X ++ B = A ++ Y ++ B) : X = Y := by
  rw [List.append_assoc, List.append_assoc] at h
  have h1 := List.append_cancel_left h
  exact List.append_cancel_right h1

theorem relMsg_inj {X Y : String}
    (h : "Relation references non-existent table \"" ++ X ++ "\""
       = "Relation references non-existent table \"" ++ Y ++ "\"") : X = Y := by
  have hd := congrArg String.data h
  simp only [String.data_append] at hd
  exact String.ext (string_append_cancel hd)

theorem relMsg_mentions (X : String) :
    mentionsNonExistentTable ("Relation references non-existent table \"" ++ X ++ "\"") := by
  refine ⟨"Relation references ", " \"" ++ (X ++ "\""), ?_⟩
  have hlit : ("Relation references " ++ ("non-existent table" ++ " \""))
      = "Relation references non-existent table \"" := by decide
  rw [← hlit]
  simp only [String.append_assoc]



theorem c4_two_errors (schema : DatabaseSchema) (rel : Relation)
    (hmem : rel ∈ schema.relations)
    (hne : rel.rfrom.table ≠ rel.rto.table)
    (hfrom : ∀ t ∈ schema.tables, t.name ≠ rel.rfrom.table)
    (hto : ∀ t ∈ schema.tables, t.name ≠ rel.rto.table) :
    ∃ e1 ∈ (validateSchema schema).errors, ∃ e2 ∈ (validateSchema schema).errors,
      e1 ≠ e2 ∧ e1.type = "error" ∧ e2.type = "error" ∧
      mentionsNonExistentTable e1.message ∧ mentionsNonExistentTable e2.message ∧
      (validateSchema schema).valid = false := by
  rcases h : checkTablesLoop (schema.enums.map (fun e => e.name)) schema.tables [] []
    with ⟨tErrs, tNames, cMap⟩
  have hmemN : ∀ x, x ∈ tNames ↔ ∃ t ∈ schema.tables, t.name = x := by
    intro x
    have := checkTablesLoop_names (schema.enums.map (fun e => e.name)) schema.tables [] [] x
    rw [h] at this
    simpa using this
  have hcf : tNames.contains rel.rfrom.table = false := by
    simp only [List.elem_eq_mem, decide_eq_false_iff_not]
    rw [hmemN]
    rintro ⟨t, ht, heq⟩
    exact hfrom t ht heq
  have hct : tNames.contains rel.rto.table = false := by
    simp only [List.elem_eq_mem, decide_eq_false_iff_not]
    rw [hmemN]
    rintro ⟨t, ht, heq⟩
    exact hto t ht heq
  have hrel : relationErrors tNames cMap rel =
      [⟨"error", "Relation references non-existent table \"" ++ rel.rfrom.table ++ "\"",
        some ⟨none, none, some (rel.name.getD (rel.rfrom.table ++ "." ++ rel.rfrom.column))⟩⟩,
       ⟨"error", "Relation references non-existent table \"" ++ rel.rto.table ++ "\"",
        some ⟨none, none, some (rel.name.getD (rel.rto.table ++ "." ++ rel.rto.column))⟩⟩] := by
    unfold relationErrors
    rw [hcf, hct]
    simp
  have herrs : (validateSchema schema).errors
      = tErrs ++ (schema.relations.map (relationErrors tNames cMap)).flatten
        ++ (schema.tableGroups.map (groupErrors tNames)).flatten := by
    simp only [validateSchema]
    rw [h]
  have hsub : ∀ e ∈ relationErrors tNames cMap rel, e ∈ (validateSchema schema).errors := by
    intro e he
    rw [herrs]
    have : e ∈ (schema.relations.map (relationErrors tNames cMap)).flatten :=
      List.mem_flatten.mpr ⟨relationErrors tNames cMap rel, List.mem_map_of_mem _ hmem, he⟩
    simp [this]
  refine ⟨_, hsub _ (by rw [hrel]; exact List.mem_cons_self _ _),
          _, hsub _ (by rw [hrel]; exact List.mem_cons_of_mem _ (List.mem_cons_self _ _)), ?_, ?_, ?_, ?_, ?_, ?_⟩
  · intro heq
    have hmsg := congrArg ValidationError.message heq
    simp only at hmsg
    exact hne (relMsg_inj hmsg)
  · rfl
  · rfl
  · exact relMsg_mentions _
  · exact relMsg_mentions _
  · have he1 : (⟨"error", "Relation references non-existent table \"" ++ rel.rfrom.table ++ "\"",
        some ⟨none, none, some (rel.name.getD (rel.rfrom.table ++ "." ++ rel.rfrom.column))⟩⟩ : ValidationError)
        ∈ (validateSchema schema).errors := hsub _ (by rw [hrel]; exact List.mem_cons_self _ _)
    have hf : (⟨"error", "Relation references non-existent table \"" ++ rel.rfrom.table ++ "\"",
        some ⟨none, none, some (rel.name.getD (rel.rfrom.table ++ "." ++ rel.rfrom.column))⟩⟩ : ValidationError)
        ∈ (validateSchema schema).errors.filter (fun e => e.type == "error") :=
      List.mem_filter.mpr ⟨he1, by simp⟩
    have hne0 : ((validateSchema schema).errors.filter (fun e => e.type == "error")).length ≠ 0 := by
      intro h0
      rw [List.length_eq_zero] at h0
      rw [h0] at hf
      exact absurd hf (List.not_mem_nil _)
    have hv : (validateSchema schema).valid
        = (((validateSchema schema).errors.filter (fun e => e.type == "error")).length == 0) := by
      conv_lhs => simp only [validateSchema]
      rw [h]
      conv_rhs => rw [herrs]
    rw [hv]
    simpa using hne0

/-- Witness for the two-error theorem at the concrete dangling schema. -/
theorem c4_witness :
    c4rel ∈ c4schema.relations ∧
    ∃ e1 ∈ (validateSchema c4schema).errors, ∃ e2 ∈ (validateSchema c4schema).errors,
      e1 ≠ e2 ∧ e1.type = "error" ∧ e2.type = "error" ∧
      mentionsNonExistentTable e1.message ∧ mentionsNonExistentTable e2.message ∧
      (validateSchema c4schema).valid = false :=
  ⟨by decide, c4_two_errors c4schema c4rel (by decide) (by decide) (by decide) (by decide)⟩

theorem charDotSplit : ∀ (A C B D : List Char), '.' ∉ A → '.' ∉ C →
    (A ++ '.' :: B = C ++ '.' :: D ↔ (A = C ∧ B = D)) := by
  intro A
  induction A with
  | nil =>
    intro C B D _ hC
    cases C with
    | nil => simp
    | cons c cs =>
      simp only [List.nil_append, List.cons_append, List.cons.injEq]
      constructor
      · rintro ⟨h1, h2⟩
        exact absurd (List.mem_cons.mpr (Or.inl h1)) hC
      · rintro ⟨h1, h2⟩
        exact absurd h1 (by simp)
  | cons a as ih =>
    intro C B D hA hC
    cases C with
    | nil =>
      simp only [List.nil_append, List.cons_append, List.cons.injEq]
      constructor
      · rintro ⟨h1, h2⟩
        exact absurd (List.mem_cons.mpr (Or.inl h1.symm)) hA
      · rintro ⟨h1, h2⟩
        exact absurd h1 (by simp)
    | cons c cs =>
      simp only [List.cons_append, List.cons.injEq]
      rw [ih cs B D (fun hm => hA (List.mem_cons_of_mem _ hm))
        (fun hm => hC (List.mem_cons_of_mem _ hm))]
      constructor
      · rintro ⟨h1, h2, h3⟩
        exact ⟨⟨h1, h2⟩, h3⟩
      · rintro ⟨⟨h1, h2⟩, h3⟩
        exact ⟨h1, h2, h3⟩

theorem dotFreeStr_iff (s : String) : dotFreeStr s = true ↔ '.' ∉ s.data := by
  simp [dotFreeStr, List.elem_eq_mem]

theorem dotSplit {a b c d : String} (ha : dotFreeStr a = true) (hc : dotFreeStr c = true) :
    a ++ "." ++ b = c ++ "." ++ d ↔ (a = c ∧ b = d) := by
  rw [dotFreeStr_iff] at ha hc
  constructor
  · intro h
    have hd := congrArg String.data h
    simp only [String.data_append] at hd
    simp only [List.append_assoc, List.singleton_append] at hd
    have := (charDotSplit a.data c.data b.data d.data ha hc).mp hd
    exact ⟨String.ext this.1, String.ext this.2⟩
  · rintro ⟨rfl, rfl⟩
    rfl

theorem buildGraph_node_mem (schema : DatabaseSchema) (node : TableNode)
    (h : node ∈ (buildGraph schema).nodes) :
    ∃ t ∈ schema.tables, node.name = t.name ∧
      node.columns = buildColumns t.name (fkColumns schema) t.columns headerHeightD := by
  have hcore := assignGroups_core (schema.tables.map (buildTableNode (fkColumns schema)))
    schema.tableGroups
  have hmem : (node.id, node.name, node.columns)
      ∈ (schema.tables.map (buildTableNode (fkColumns schema))).map
        (fun n => (n.id, n.name, n.columns)) := by
    rw [← hcore]
    exact List.mem_map_of_mem _ h
  rw [List.map_map] at hmem
  rcases List.mem_map.mp hmem with ⟨t, ht, heq⟩
  simp only [Function.comp, buildTableNode] at heq
  refine ⟨t, ht, ?_, ?_⟩
  · have := congrArg (fun p => p.2.1) heq
    simpa using this.symm
  · have := congrArg (fun p => p.2.2) heq
    simpa using this.symm

theorem buildColumns_mem (tn : String) (fk : List String) :
    ∀ (cols : List Column) (off : Int) (cn : ColumnNode),
      cn ∈ buildColumns tn fk cols off →
      ∃ c ∈ cols, ∃ o : Int, cn = buildColumnNode tn c fk o := by
  intro cols
  induction cols with
  | nil => intro off cn h; simp [buildColumns] at h
  | cons c rest ih =>
    intro off cn h
    rw [buildColumns] at h
    rcases List.mem_cons.mp h with rfl | h'
    · exact ⟨c, by simp, off, rfl⟩
    · rcases ih (off + columnHeightD) cn h' with ⟨c', hc', o, rfl⟩
      exact ⟨c', by simp [hc'], o, rfl⟩
theorem c3_fk_marking :
    (∀ (schema : DatabaseSchema) (node : TableNode) (cn : ColumnNode),
       node ∈ (buildGraph schema).nodes → cn ∈ node.columns →
       ((cn.isForeignKey = true ↔
           ∃ rel ∈ schema.relations, cn.id = rel.rfrom.table ++ "." ++ rel.rfrom.column) ∧
        (dotFreeSchema schema →
          (cn.isForeignKey = true ↔
            ∃ rel ∈ schema.relations, rel.rfrom.table = node.name ∧ rel.rfrom.column = cn.name)))) ∧
    ((∃ cn ∈ postsNode.columns, cn.name = "author_id" ∧ cn.isForeignKey = true) ∧
     (∀ cn ∈ usersNode.columns, cn.isForeignKey = false) ∧
     (buildGraph postsUsersSchema).nodes = [postsNode, usersNode]) := by
  constructor
  · intro schema node cn hn hc
    rcases buildGraph_node_mem schema node hn with ⟨t, ht, hname, hcols⟩
    rw [hcols] at hc
    rcases buildColumns_mem t.name (fkColumns schema) t.columns headerHeightD cn hc
      with ⟨c, hcmem, o, rfl⟩
    have hid : (buildColumnNode t.name c (fkColumns schema) o).id
        = t.name ++ "." ++ c.name := rfl
    have hfk : (buildColumnNode t.name c (fkColumns schema) o).isForeignKey
        = (fkColumns schema).contains (t.name ++ "." ++ c.name) := rfl
    have hnm : (buildColumnNode t.name c (fkColumns schema) o).name = c.name := rfl
    have iff1 : (buildColumnNode t.name c (fkColumns schema) o).isForeignKey = true ↔
        ∃ rel ∈ schema.relations,
          (buildColumnNode t.name c (fkColumns schema) o).id
            = rel.rfrom.table ++ "." ++ rel.rfrom.column := by
      rw [hfk, hid]
      simp only [List.elem_eq_mem, decide_eq_true_eq, fkColumns, List.mem_map]
      constructor
      · rintro ⟨rel, hrel, heq⟩
        exact ⟨rel, hrel, heq.symm⟩
      · rintro ⟨rel, hrel, heq⟩
        exact ⟨rel, hrel, heq.symm⟩
    refine ⟨iff1, ?_⟩
    intro hdf
    rw [iff1]
    have hdt : dotFreeStr t.name = true := (hdf.1 t ht).1
    have hdc : dotFreeStr c.name = true := (hdf.1 t ht).2 c hcmem
    constructor
    · rintro ⟨rel, hrel, heq⟩
      have hdrt := (hdf.2 rel hrel).1
      rw [hid] at heq
      rw [dotSplit hdt hdrt] at heq
      exact ⟨rel, hrel, by rw [hname, ← heq.1], by rw [hnm, ← heq.2]⟩
    · rintro ⟨rel, hrel, h1, h2⟩
      refine ⟨rel, hrel, ?_⟩
      rw [hid, dotSplit hdt ((hdf.2 rel hrel).1)]
      exact ⟨by rw [h1, hname], by rw [h2, hnm]⟩
  · exact ⟨by decide, by decide, by decide⟩

theorem c3_counterexample :
    ∃ node ∈ (buildGraph dottedSchema).nodes, ∃ cn ∈ node.columns,
      cn.isForeignKey = true ∧
      ¬ ∃ rel ∈ dottedSchema.relations,
        rel.rfrom.table = node.name ∧ rel.rfrom.column = cn.name := by decide

/-- Witness for the FK-marking theorem at the posts/users example. -/
theorem c3_witness :
    postsNode ∈ (buildGraph postsUsersSchema).nodes ∧ authorIdCol ∈ postsNode.columns ∧
    (authorIdCol.isForeignKey = true ↔ ∃ rel ∈ postsUsersSchema.relations,
      authorIdCol.id = rel.rfrom.table ++ "." ++ rel.rfrom.column) :=
  ⟨by decide, by decide,
    (c3_fk_marking.1 postsUsersSchema postsNode authorIdCol (by decide) (by decide)).1⟩

end Erd

namespace Erd

theorem keywordType_ne_number (s : String) : keywordType s ≠ TokenType.NUMBER := by
  unfold keywordType
  repeat' split
  all_goals simp

theorem numberShape_of_digit (c : Char) (rest : List Char) (h : c.isDigit = true) :
    numberTokenShape ⟨c :: rest.takeWhile isNumberCh⟩ = true := by
  simp only [numberTokenShape, Bool.and_eq_true, List.all_eq_true]
  refine ⟨h, ?_⟩
  intro x hx
  rcases List.mem_cons.mp hx with rfl | hx'
  · simp [isNumberCh, h]
  · exact List.mem_takeWhile_imp hx'

theorem lexStep_number_shape (c : Char) (rest : List Char) (line col : Nat)
    (tok : Token) (rest2 : List Char) (l2 c2 : Nat)
    (hstep : lexStep c rest line col = (tok, rest2, l2, c2))
    (hty : tok.type = TokenType.NUMBER) :
    numberTokenShape tok.value = true := by
  rw [lexStep] at hstep
  by_cases h1 : (c == '\n') = true
  · rw [if_pos h1] at hstep
    simp only [Prod.mk.injEq] at hstep
    obtain ⟨rfl, -, -, -⟩ := hstep
    simp at hty
  rw [if_neg h1] at hstep
  by_cases h2 : (c == '\'' || c == '\"' || c == '\x60') = true
  · rw [if_pos h2] at hstep
    simp only [Prod.mk.injEq] at hstep
    obtain ⟨rfl, -, -, -⟩ := hstep
    simp at hty
  rw [if_neg h2] at hstep
  by_cases h3 : c.isDigit = true
  · rw [if_pos h3] at hstep
    simp only [Prod.mk.injEq] at hstep
    obtain ⟨rfl, -, -, -⟩ := hstep
    exact numberShape_of_digit c rest h3
  rw [if_neg h3] at hstep
  by_cases h4 : (c.isAlpha || c == '_') = true
  · rw [if_pos h4] at hstep
    simp only [Prod.mk.injEq] at hstep
    obtain ⟨rfl, -, -, -⟩ := hstep
    exact absurd hty (keywordType_ne_number _)
  rw [if_neg h4] at hstep
  by_cases h5 : (c == '\x7b') = true
  · rw [if_pos h5] at hstep
    simp only [Prod.mk.injEq] at hstep
    obtain ⟨rfl, -, -, -⟩ := hstep
    simp at hty
  rw [if_neg h5] at hstep
  by_cases h6 : (c == '\x7d') = true
  · rw [if_pos h6] at hstep
    simp only [Prod.mk.injEq] at hstep
    obtain ⟨rfl, -, -, -⟩ := hstep
    simp at hty
  rw [if_neg h6] at hstep
  by_cases h7 : (c == '[') = true
  · rw [if_pos h7] at hstep
    simp only [Prod.mk.injEq] at hstep
    obtain ⟨rfl, -, -, -⟩ := hstep
    simp at hty
  rw [if_neg h7] at hstep
  by_cases h8 : (c == ']') = true
  · rw [if_pos h8] at hstep
    simp only [Prod.mk.injEq] at hstep
    obtain ⟨rfl, -, -, -⟩ := hstep
    simp at hty
  rw [if_neg h8] at hstep
  by_cases h9 : (c == '(') = true
  · rw [if_pos h9] at hstep
    simp only [Prod.mk.injEq] at hstep
    obtain ⟨rfl, -, -, -⟩ := hstep
    simp at hty
  rw [if_neg h9] at hstep
  by_cases h10 : (c == ')') = true
  · rw [if_pos h10] at hstep
    simp only [Prod.mk.injEq] at hstep
    obtain ⟨rfl, -, -, -⟩ := hstep
    simp at hty
  rw [if_neg h10] at hstep
  by_cases h11 : (c == ',') = true
  · rw [if_pos h11] at hstep
    simp only [Prod.mk.injEq] at hstep
    obtain ⟨rfl, -, -, -⟩ := hstep
    simp at hty
  rw [if_neg h11] at hstep
  by_cases h12 : (c == ':') = true
  · rw [if_pos h12] at hstep
    simp only [Prod.mk.injEq] at hstep
    obtain ⟨rfl, -, -, -⟩ := hstep
    simp at hty
  rw [if_neg h12] at hstep
  by_cases h13 : (c == '.') = true
  · rw [if_pos h13] at hstep
    simp only [Prod.mk.injEq] at hstep
    obtain ⟨rfl, -, -, -⟩ := hstep
    simp at hty
  rw [if_neg h13] at hstep
  by_cases h14 : (c == '-') = true
  · rw [if_pos h14] at hstep
    simp only [Prod.mk.injEq] at hstep
    obtain ⟨rfl, -, -, -⟩ := hstep
    simp at hty
  rw [if_neg h14] at hstep
  by_cases h15 : (c == '<') = true
  · rw [if_pos h15] at hstep
    by_cases h15b : (rest.head? == some '>') = true
    · rw [if_pos h15b] at hstep
      simp only [Prod.mk.injEq] at hstep
      obtain ⟨rfl, -, -, -⟩ := hstep
      simp at hty
    · rw [if_neg h15b] at hstep
      simp only [Prod.mk.injEq] at hstep
      obtain ⟨rfl, -, -, -⟩ := hstep
      simp at hty
  rw [if_neg h15] at hstep
  by_cases h16 : (c == '>') = true
  · rw [if_pos h16] at hstep
    simp only [Prod.mk.injEq] at hstep
    obtain ⟨rfl, -, -, -⟩ := hstep
    simp at hty
  rw [if_neg h16] at hstep
  simp only [Prod.mk.injEq] at hstep
  obtain ⟨rfl, -, -, -⟩ := hstep
  simp at hty

end Erd

namespace Erd

theorem lexLoopF_number_shape (fuel : Nat) :
    ∀ (cs : List Char) (line col : Nat) (tok : Token),
      tok ∈ lexLoopF fuel cs line col →
      tok.type = TokenType.NUMBER →
      numberTokenShape tok.value = true := by
  induction fuel with
  | zero => intro cs line col tok h _; simp [lexLoopF] at h
  | succ n ih =>
    intro cs line col tok h hty
    rw [lexLoopF] at h
    rcases hws : skipWS cs line col with ⟨cs0, line', col'⟩
    simp only [hws] at h
    cases cs0 with
    | nil =>
      simp at h
      subst h
      simp at hty
    | cons c rest =>
      rcases hstep : lexStep c rest line' col' with ⟨tok1, rest1, l1, c1⟩
      simp only [hstep] at h
      rcases List.mem_cons.mp h with rfl | h'
      · exact lexStep_number_shape c rest line' col' _ _ _ _ hstep hty
      · exact ih rest1 l1 c1 tok h' hty

/-- C6: corrected. The spec claims every NUMBER token value matches the
pattern of digits optionally followed by one dot and digits. In fact
readNumber consumes any run of digits and dots after a leading digit, so
values such as 1.2.3 occur. What does hold, proved here: every NUMBER
token produced by tokenize has a value whose first character is a digit
and whose characters are all digits or dots. -/
theorem c6_number_token_shape (s : String) (tok : Token)
    (h : tok ∈ tokenize s) (hty : tok.type = TokenType.NUMBER) :
    numberTokenShape tok.value = true := by
  unfold tokenize lexLoop at h
  exact lexLoopF_number_shape (s.data.length + 1) s.data 1 1 tok h hty

theorem c6_witness :
    (⟨TokenType.NUMBER, "42", 1, 1⟩ : Token) ∈ tokenize "42" ∧
    numberTokenShape "42" = true :=
  ⟨by decide, c6_number_token_shape "42" ⟨TokenType.NUMBER, "42", 1, 1⟩ (by decide) (by decide)⟩

theorem c6_counterexample :
    (⟨TokenType.NUMBER, "1.2.3", 1, 1⟩ : Token) ∈ tokenize "1.2.3" ∧
    matchesNumberPattern "1.2.3" = false := by decide

end Erd

namespace Erd

theorem lexStep_len (c : Char) (rest : List Char) (line col : Nat) :
    (lexStep c rest line col).2.1.length ≤ rest.length := by
  rw [lexStep]
  by_cases h1 : (c == '\n') = true
  · rw [if_pos h1]
  all_goals rw [if_neg h1]
  by_cases h2 : (c == '\'' || c == '\"' || c == '\x60') = true
  · rw [if_pos h2]
    exact readStringGo_len c rest "" 1
  all_goals rw [if_neg h2]
  by_cases h3 : c.isDigit = true
  · rw [if_pos h3]
    exact dropWhile_len isNumberCh rest
  all_goals rw [if_neg h3]
  by_cases h4 : (c.isAlpha || c == '_') = true
  · rw [if_pos h4]
    exact dropWhile_len isAlphaNumericCh rest
  all_goals rw [if_neg h4]
  by_cases h5 : (c == '\x7b') = true
  · rw [if_pos h5]
  all_goals rw [if_neg h5]
  by_cases h6 : (c == '\x7d') = true
  · rw [if_pos h6]
  all_goals rw [if_neg h6]
  by_cases h7 : (c == '[') = true
  · rw [if_pos h7]
  all_goals rw [if_neg h7]
  by_cases h8 : (c == ']') = true
  · rw [if_pos h8]
  all_goals rw [if_neg h8]
  by_cases h9 : (c == '(') = true
  · rw [if_pos h9]
  all_goals rw [if_neg h9]
  by_cases h10 : (c == ')') = true
  · rw [if_pos h10]
  all_goals rw [if_neg h10]
  by_cases h11 : (c == ',') = true
  · rw [if_pos h11]
  all_goals rw [if_neg h11]
  by_cases h12 : (c == ':') = true
  · rw [if_pos h12]
  all_goals rw [if_neg h12]
  by_cases h13 : (c == '.') = true
  · rw [if_pos h13]
  all_goals rw [if_neg h13]
  by_cases h14 : (c == '-') = true
  · rw [if_pos h14]
  all_goals rw [if_neg h14]
  by_cases h15 : (c == '<') = true
  · rw [if_pos h15]
    by_cases h15b : (rest.head? == some '>') = true
    · rw [if_pos h15b]
      show rest.tail.length ≤ rest.length
      rw [List.length_tail]
      exact Nat.sub_le _ _
    · rw [if_neg h15b]
  all_goals rw [if_neg h15]
  by_cases h16 : (c == '>') = true
  · rw [if_pos h16]
  all_goals rw [if_neg h16]

theorem lexStep_unrec (ch : Char) (rest : List Char) (line col : Nat)
    (hunrec : isUnrecognizedChar ch = true) :
    lexStep ch rest line col =
      (⟨.UNKNOWN, String.singleton ch, line, col⟩, rest, line, col + 1) := by
  have a1 : ¬((ch == '\n') = true) := fun hh => by simp [isUnrecognizedChar, hh] at hunrec
  have a2 : ¬((ch == '\'') = true) := fun hh => by simp [isUnrecognizedChar, hh] at hunrec
  have a3 : ¬((ch == '\"') = true) := fun hh => by simp [isUnrecognizedChar, hh] at hunrec
  have a4 : ¬((ch == '\x60') = true) := fun hh => by simp [isUnrecognizedChar, hh] at hunrec
  have a5 : ¬(ch.isDigit = true) := fun hh => by simp [isUnrecognizedChar, hh] at hunrec
  have a6 : ¬(ch.isAlpha = true) := fun hh => by simp [isUnrecognizedChar, hh] at hunrec
  have a7 : ¬((ch == '_') = true) := fun hh => by simp [isUnrecognizedChar, hh] at hunrec
  have a8 : ¬((ch == '\x7b') = true) := fun hh => by simp [isUnrecognizedChar, hh] at hunrec
  have a9 : ¬((ch == '\x7d') = true) := fun hh => by simp [isUnrecognizedChar, hh] at hunrec
  have a10 : ¬((ch == '[') = true) := fun hh => by simp [isUnrecognizedChar, hh] at hunrec
  have a11 : ¬((ch == ']') = true) := fun hh => by simp [isUnrecognizedChar, hh] at hunrec
  have a12 : ¬((ch == '(') = true) := fun hh => by simp [isUnrecognizedChar, hh] at hunrec
  have a13 : ¬((ch == ')') = true) := fun hh => by simp [isUnrecognizedChar, hh] at hunrec
  have a14 : ¬((ch == ',') = true) := fun hh => by simp [isUnrecognizedChar, hh] at hunrec
  have a15 : ¬((ch == ':') = true) := fun hh => by simp [isUnrecognizedChar, hh] at hunrec
  have a16 : ¬((ch == '.') = true) := fun hh => by simp [isUnrecognizedChar, hh] at hunrec
  have a17 : ¬((ch == '-') = true) := fun hh => by simp [isUnrecognizedChar, hh] at hunrec
  have a18 : ¬((ch == '<') = true) := fun hh => by simp [isUnrecognizedChar, hh] at hunrec
  have a19 : ¬((ch == '>') = true) := fun hh => by simp [isUnrecognizedChar, hh] at hunrec
  have n2 : ¬((ch == '\'' || ch == '\"' || ch == '\x60') = true) := by
    simp only [Bool.or_eq_true, not_or]
    exact ⟨⟨a2, a3⟩, a4⟩
  have n4 : ¬((ch.isAlpha || ch == '_') = true) := by
    simp only [Bool.or_eq_true, not_or]
    exact ⟨a6, a7⟩
  rw [lexStep]
  all_goals rw [if_neg a1]
  all_goals rw [if_neg n2]
  all_goals rw [if_neg a5]
  all_goals rw [if_neg n4]
  all_goals rw [if_neg a8]
  all_goals rw [if_neg a9]
  all_goals rw [if_neg a10]
  all_goals rw [if_neg a11]
  all_goals rw [if_neg a12]
  all_goals rw [if_neg a13]
  all_goals rw [if_neg a14]
  all_goals rw [if_neg a15]
  all_goals rw [if_neg a16]
  all_goals rw [if_neg a17]
  all_goals rw [if_neg a18]
  all_goals rw [if_neg a19]

end Erd

namespace Erd

theorem skipWS_unrec (ch : Char) (rest : List Char) (line col : Nat)
    (hunrec : isUnrecognizedChar ch = true) :
    skipWS (ch :: rest) line col = (ch :: rest, line, col) := by
  unfold skipWS
  refine skipWSMode.eq_10 (ch :: rest) line col ?_ ?_ ?_ ?_ ?_ ?_
  · intro h; cases h
  · intro r h
    injection h with h1 _
    rw [h1] at hunrec
    exact absurd hunrec (by decide)
  · intro r h
    injection h with h1 _
    rw [h1] at hunrec
    exact absurd hunrec (by decide)
  · intro r h
    injection h with h1 _
    rw [h1] at hunrec
    exact absurd hunrec (by decide)
  · intro r h
    injection h with h1 _
    rw [h1] at hunrec
    exact absurd hunrec (by decide)
  · intro r h
    injection h with h1 _
    rw [h1] at hunrec
    exact absurd hunrec (by decide)

theorem lexLoop_unrec (ch : Char) (rest : List Char) (line col : Nat)
    (hunrec : isUnrecognizedChar ch = true) :
    lexLoop (ch :: rest) line col =
      ⟨.UNKNOWN, String.singleton ch, line, col⟩ :: lexLoop rest line (col + 1) := by
  unfold lexLoop
  simp only [List.length_cons]
  rw [lexLoopF]
  rw [skipWS_unrec ch rest line col hunrec]
  simp only [lexStep_unrec ch rest line col hunrec]

theorem cons_getLast? (a : Token) (L : List Token) (x : Token)
    (h : L.getLast? = some x) : (a :: L).getLast? = some x := by
  cases L with
  | nil => simp at h
  | cons b l =>
    rw [List.getLast?_cons_cons]
    exact h

theorem lexLoopF_eof (fuel : Nat) :
    ∀ (cs : List Char) (line col : Nat), cs.length < fuel →
      ∃ l c, (lexLoopF fuel cs line col).getLast? = some ⟨.EOF, "", l, c⟩ := by
  induction fuel with
  | zero => intro cs line col h; omega
  | succ n ih =>
    intro cs line col h
    rw [lexLoopF]
    rcases hws : skipWS cs line col with ⟨cs0, line', col'⟩
    simp only [hws]
    have hlen0 : cs0.length ≤ cs.length := by
      have hsw := skipWS_len cs line col
      rw [hws] at hsw
      exact hsw
    cases cs0 with
    | nil => exact ⟨line', col', by simp⟩
    | cons c rest =>
      rcases hstep : lexStep c rest line' col' with ⟨tok, rest', l2, c2⟩
      simp only [hstep]
      have hlen : rest'.length ≤ rest.length := by
        have hls := lexStep_len c rest line' col'
        rw [hstep] at hls
        exact hls
      have hfuel : rest'.length < n := by
        simp only [List.length_cons] at hlen0
        omega
      obtain ⟨l3, c3, hl⟩ := ih rest' l2 c2 hfuel
      exact ⟨l3, c3, cons_getLast? tok _ _ hl⟩

/-- C5: confirmed. In this embedding tokenize is a total function whose
fuel (input length plus one) is proved sufficient, so it terminates on
every input without error; the returned token list always ends with a
synthetic EOF token, and whenever the character at the front of the
remaining input is recognized by no lexer rule (isUnrecognizedChar), the
lexer emits an UNKNOWN token holding exactly that character and continues
one column further. -/
theorem c5_lexer_total (s : String) :
    (∃ l c, (tokenize s).getLast? = some ⟨TokenType.EOF, "", l, c⟩) ∧
    (∀ (ch : Char) (rest : List Char) (line col : Nat),
       isUnrecognizedChar ch = true →
       lexLoop (ch :: rest) line col =
         ⟨TokenType.UNKNOWN, String.singleton ch, line, col⟩ :: lexLoop rest line (col + 1)) := by
  constructor
  · unfold tokenize lexLoop
    exact lexLoopF_eof (s.data.length + 1) s.data 1 1 (by omega)
  · intro ch rest line col hunrec
    exact lexLoop_unrec ch rest line col hunrec

theorem c5_witness :
    (∃ l c, (tokenize "a @").getLast? = some ⟨TokenType.EOF, "", l, c⟩) ∧
    lexLoop ['@'] 1 3 = ⟨TokenType.UNKNOWN, String.singleton '@', 1, 3⟩ :: lexLoop [] 1 4 :=
  ⟨(c5_lexer_total "a @").1, (c5_lexer_total "a @").2 '@' [] 1 3 (by decide)⟩

end Erd

namespace Erd

theorem foldGet_some {α : Type} (f : α → String) (k : String) :
    ∀ (l : List α) (acc : Option α) (c : α),
      l.foldl (fun a t => if f t == k then some t else a) acc = some c →
      (c ∈ l ∧ f c = k) ∨ acc = some c := by
  intro l
  induction l with
  | nil => intro acc c h; exact Or.inr h
  | cons x xs ih =>
    intro acc c h
    rw [List.foldl_cons] at h
    rcases ih _ c h with ⟨hm, hn⟩ | hacc
    · exact Or.inl ⟨List.mem_cons_of_mem _ hm, hn⟩
    · by_cases hx : (f x == k) = true
      · rw [if_pos hx] at hacc
        injection hacc with hacc
        subst hacc
        exact Or.inl ⟨List.mem_cons_self _ _, by simpa using hx⟩
      · rw [if_neg hx] at hacc
        exact Or.inr hacc

theorem colMapGet_some (l : List Column) (k : String) (c : Column)
    (h : colMapGet l k = some c) : c ∈ l ∧ c.name = k := by
  unfold colMapGet at h
  rcases foldGet_some (fun c => c.name) k l none c h with hg | hbad
  · exact hg
  · cases hbad

theorem tableMapGet_some (l : List Table) (k : String) (t : Table)
    (h : tableMapGet l k = some t) : t ∈ l ∧ t.name = k := by
  unfold tableMapGet at h
  rcases foldGet_some (fun t => t.name) k l none t h with hg | hbad
  · exact hg
  · cases hbad

theorem mem_dedupFirst (x : String) : ∀ l : List String, x ∈ dedupFirst l ↔ x ∈ l := by
  intro l
  induction l with
  | nil => simp [dedupFirst]
  | cons y ys ih =>
    simp only [dedupFirst, List.mem_cons, List.mem_filter]
    constructor
    · rintro (rfl | ⟨hmem, -⟩)
      · exact Or.inl rfl
      · exact Or.inr (ih.mp hmem)
    · rintro (rfl | hmem)
      · exact Or.inl rfl
      · by_cases hxy : x = y
        · exact Or.inl hxy
        · exact Or.inr ⟨ih.mpr hmem, by simpa using hxy⟩

theorem ite_some_or {α : Type} (P : Prop) (inst : Decidable P) (x y z : α)
    (h : (if P then some x else some y) = some z) : z = x ∨ z = y := by
  split at h
  · injection h with h; exact Or.inl h.symm
  · injection h with h; exact Or.inr h.symm

theorem diffColumnName_spec (oldT newT : Table) (n : String) (cd : ColumnDiff) (flag : Bool)
    (h : diffColumnName oldT newT n = some (cd, flag)) :
    cd.name = n ∧ (flag = true ↔ cd.action ≠ "unchanged") := by
  unfold diffColumnName at h
  split at h
  · injection h with h
    injection h with h1 h2
    subst h1; subst h2
    refine ⟨rfl, ?_⟩
    show true = true ↔ "added" ≠ "unchanged"
    decide
  · injection h with h
    injection h with h1 h2
    subst h1; subst h2
    refine ⟨rfl, ?_⟩
    show true = true ↔ "removed" ≠ "unchanged"
    decide
  · rcases ite_some_or _ _ _ _ _ h with h' | h'
    · injection h' with h1 h2
      subst h1; subst h2
      refine ⟨rfl, ?_⟩
      show true = true ↔ "modified" ≠ "unchanged"
      decide
    · injection h' with h1 h2
      subst h1; subst h2
      refine ⟨rfl, ?_⟩
      show false = true ↔ "unchanged" ≠ "unchanged"
      decide
  · cases h

end Erd

namespace Erd

theorem diffColsLoop_modified (oldT newT : Table) :
    ∀ (names : List String) (ds : List ColumnDiff) (m : Bool),
      diffColsLoop oldT newT names = (ds, m) →
      (m = true ↔ ∃ cd ∈ ds, cd.action ≠ "unchanged") := by
  intro names
  induction names with
  | nil =>
    intro ds m h
    injection h with h1 h2
    subst h1; subst h2
    simp
  | cons n rest ih =>
    intro ds m h
    unfold diffColsLoop at h
    rcases hdl : diffColsLoop oldT newT rest with ⟨ds0, m0⟩
    simp only [hdl] at h
    have ihm := ih ds0 m0 hdl
    rcases hdc : diffColumnName oldT newT n with _ | ⟨cd, flag⟩ <;> simp only [hdc] at h
    · injection h with h1 h2
      subst h1; subst h2
      exact ihm
    · injection h with h1 h2
      subst h1; subst h2
      obtain ⟨-, hflag⟩ := diffColumnName_spec oldT newT n cd flag hdc
      constructor
      · intro hor
        simp only [Bool.or_eq_true] at hor
        rcases hor with hf | hm
        · exact ⟨cd, List.mem_cons_self _ _, hflag.mp hf⟩
        · obtain ⟨cd', hmem, hne⟩ := ihm.mp hm
          exact ⟨cd', List.mem_cons_of_mem _ hmem, hne⟩
      · rintro ⟨cd', hmem, hne⟩
        simp only [Bool.or_eq_true]
        rcases List.mem_cons.mp hmem with rfl | hmem'
        · exact Or.inl (hflag.mpr hne)
        · exact Or.inr (ihm.mpr ⟨cd', hmem', hne⟩)

theorem diffColsLoop_mem (oldT newT : Table) :
    ∀ (names : List String) (ds : List ColumnDiff) (m : Bool),
      diffColsLoop oldT newT names = (ds, m) →
      ∀ n ∈ names, ∀ (cd : ColumnDiff) (flag : Bool),
        diffColumnName oldT newT n = some (cd, flag) → cd ∈ ds := by
  intro names
  induction names with
  | nil => intro ds m h n hn; simp at hn
  | cons n0 rest ih =>
    intro ds m h n hn cd flag hdc
    unfold diffColsLoop at h
    rcases hdl : diffColsLoop oldT newT rest with ⟨ds0, m0⟩
    simp only [hdl] at h
    rcases List.mem_cons.mp hn with rfl | hn'
    · simp only [hdc] at h
      injection h with h1 h2
      rw [← h1]
      exact List.mem_cons_self _ _
    · rcases hdc0 : diffColumnName oldT newT n0 with _ | ⟨cd0, flag0⟩ <;> simp only [hdc0] at h
      · injection h with h1 h2
        rw [← h1]
        exact ih ds0 m0 hdl n hn' cd flag hdc
      · injection h with h1 h2
        rw [← h1]
        exact List.mem_cons_of_mem _ (ih ds0 m0 hdl n hn' cd flag hdc)

theorem diffColumnName_common (oldT newT : Table) (n : String) (oc nc : Column)
    (ho : colMapGet oldT.columns n = some oc) (hn : colMapGet newT.columns n = some nc) :
    ∃ cd flag, diffColumnName oldT newT n = some (cd, flag) ∧
      (cd.action = "modified" ↔ (displayType oc ≠ displayType nc ∨
        oc.settings.primaryKey ≠ nc.settings.primaryKey ∨
        oc.settings.notNull ≠ nc.settings.notNull)) := by
  by_cases h1 : displayType oc ≠ displayType nc <;>
    by_cases h2 : oc.settings.primaryKey ≠ nc.settings.primaryKey <;>
    by_cases h3 : oc.settings.notNull ≠ nc.settings.notNull <;>
    simp [diffColumnName, ho, hn, h1, h2, h3]

end Erd

namespace Erd

/-- C8: confirmed. For a table name present in both schemas, diffSchemas
produces a table diff entry whose action is modified exactly when one of
its column diffs has an action other than unchanged (added, removed or
modified), and every column present in both tables yields a column diff
tagged modified exactly when its resolved display type (rawType when
present, else type), its primaryKey setting or its notNull setting
changed; no other column setting is compared. -/
theorem c8_diff_modified (oldS newS : DatabaseSchema) (tname : String) (oldT newT : Table)
    (ho : tableMapGet oldS.tables tname = some oldT)
    (hn : tableMapGet newS.tables tname = some newT) :
    ∃ td, diffTableName oldS newS tname = some td ∧
      td ∈ (diffSchemas oldS newS).tables ∧
      (td.action = "modified" ↔ ∃ cd ∈ td.columnDiffs, cd.action ≠ "unchanged") ∧
      (∀ (colName : String) (oc nc : Column),
        colMapGet oldT.columns colName = some oc →
        colMapGet newT.columns colName = some nc →
        ∃ cd ∈ td.columnDiffs, cd.name = colName ∧
          (cd.action = "modified" ↔ (displayType oc ≠ displayType nc ∨
            oc.settings.primaryKey ≠ nc.settings.primaryKey ∨
            oc.settings.notNull ≠ nc.settings.notNull))) := by
  rcases hdc : diffColsLoop oldT newT (dedupFirst (oldT.columns.map (fun c => c.name)
      ++ newT.columns.map (fun c => c.name))) with ⟨ds, m⟩
  have htd : diffTableName oldS newS tname =
      some ⟨tname, if m then "modified" else "unchanged", ds, none⟩ := by
    simp only [diffTableName, ho, hn, hdc]
  refine ⟨_, htd, ?_, ?_, ?_⟩
  · obtain ⟨hmem, hname⟩ := tableMapGet_some _ _ _ ho
    have hmemname : tname ∈ dedupFirst (oldS.tables.map (fun t => t.name)
        ++ newS.tables.map (fun t => t.name)) :=
      (mem_dedupFirst _ _).mpr (List.mem_append.mpr
        (Or.inl (hname ▸ List.mem_map_of_mem _ hmem)))
    have htables : (diffSchemas oldS newS).tables =
        (dedupFirst (oldS.tables.map (fun t => t.name)
          ++ newS.tables.map (fun t => t.name))).filterMap (diffTableName oldS newS) := rfl
    rw [htables]
    exact List.mem_filterMap.mpr ⟨tname, hmemname, htd⟩
  · have hm := diffColsLoop_modified oldT newT _ ds m hdc
    cases m with
    | true => exact iff_of_true rfl (hm.mp rfl)
    | false =>
      refine iff_of_false ?_ ?_
      · show ¬("unchanged" = "modified")
        decide
      · intro hex
        exact Bool.noConfusion (hm.mpr hex)
  · intro colName oc nc hoc hnc
    obtain ⟨cd, flag, hdcn, hiff⟩ := diffColumnName_common oldT newT colName oc nc hoc hnc
    obtain ⟨hnameeq, -⟩ := diffColumnName_spec oldT newT colName cd flag hdcn
    have hmemn : colName ∈ dedupFirst (oldT.columns.map (fun c => c.name)
        ++ newT.columns.map (fun c => c.name)) := by
      obtain ⟨hm', hn'⟩ := colMapGet_some _ _ _ hoc
      exact (mem_dedupFirst _ _).mpr (List.mem_append.mpr
        (Or.inl (hn' ▸ List.mem_map_of_mem _ hm')))
    exact ⟨cd, diffColsLoop_mem oldT newT _ ds m hdc colName hmemn cd flag hdcn, hnameeq, hiff⟩

theorem c8_witness :
    ∃ td, diffTableName c8old c8new "t" = some td ∧
      td ∈ (diffSchemas c8old c8new).tables ∧
      (td.action = "modified" ↔ ∃ cd ∈ td.columnDiffs, cd.action ≠ "unchanged") ∧
      (∀ (colName : String) (oc nc : Column),
        colMapGet ({ name := "t"
                     columns := [{ name := "id", type := "int", settings := { primaryKey := some true } },
                                 { name := "kept", type := "text", settings := {} }]
                     indexes := [] } : Table).columns colName = some oc →
        colMapGet ({ name := "t"
                     columns := [{ name := "id", type := "bigint", settings := { primaryKey := some true } },
                                 { name := "kept", type := "text", settings := {} }]
                     indexes := [] } : Table).columns colName = some nc →
        ∃ cd ∈ td.columnDiffs, cd.name = colName ∧
          (cd.action = "modified" ↔ (displayType oc ≠ displayType nc ∨
            oc.settings.primaryKey ≠ nc.settings.primaryKey ∨
            oc.settings.notNull ≠ nc.settings.notNull))) :=
  c8_diff_modified c8old c8new "t"
    { name := "t"
      columns := [{ name := "id", type := "int", settings := { primaryKey := some true } },
                  { name := "kept", type := "text", settings := {} }]
      indexes := [] }
    { name := "t"
      columns := [{ name := "id", type := "bigint", settings := { primaryKey := some true } },
                  { name := "kept", type := "text", settings := {} }]
      indexes := [] }
    (by decide) (by decide)

end Erd

namespace Erd

theorem gridPlace_spec (sX sY pad : Int) (columns : Nat) (hsX : 0 < sX) (hsY : 0 < sY) :
    ∀ (ns : List TableNode), (∀ p ∈ ns, 0 < p.size.width ∧ 0 < p.size.height) →
      ∀ (x y rowH : Int) (col : Nat),
      (∀ p ∈ gridPlace sX sY pad columns ns x y rowH col,
        (p.position.y = y ∧ x ≤ p.position.x) ∨ y + rowH + sY ≤ p.position.y) ∧
      (gridPlace sX sY pad columns ns x y rowH col).Pairwise
        (fun a b => ¬ rectsIntersect (nodeRect a) (nodeRect b)) := by
  intro ns
  induction ns with
  | nil =>
    intro _ x y rowH col
    constructor
    · intro p hp
      simp [gridPlace] at hp
    · simp [gridPlace]
  | cons n rest ih =>
    intro hpos x y rowH col
    have hw : 0 < n.size.width := (hpos n (List.mem_cons_self _ _)).1
    have hrest : ∀ p ∈ rest, 0 < p.size.width ∧ 0 < p.size.height :=
      fun p hp => hpos p (List.mem_cons_of_mem _ hp)
    simp only [gridPlace]
    split
    · obtain ⟨ihF, ihP⟩ := ih hrest pad (y + max rowH n.size.height + sY) 0 0
      constructor
      · intro p hp
        rcases List.mem_cons.mp hp with rfl | hp'
        · exact Or.inl ⟨rfl, le_refl x⟩
        · right
          have hm := le_max_left rowH n.size.height
          rcases ihF p hp' with ⟨hy, -⟩ | hge
          · rw [hy]
            omega
          · omega
      · rw [List.pairwise_cons]
        refine ⟨?_, ihP⟩
        intro p hp hint
        have hm := le_max_right rowH n.size.height
        have hcon : p.position.y ≤ y + n.size.height := hint.2.2.2
        rcases ihF p hp with ⟨hy, -⟩ | hge
        · rw [hy] at hcon
          omega
        · omega
    · obtain ⟨ihF, ihP⟩ := ih hrest (x + n.size.width + sX) y (max rowH n.size.height) (col + 1)
      constructor
      · intro p hp
        rcases List.mem_cons.mp hp with rfl | hp'
        · exact Or.inl ⟨rfl, le_refl x⟩
        · have hm := le_max_left rowH n.size.height
          rcases ihF p hp' with ⟨hy, hx⟩ | hge
          · exact Or.inl ⟨hy, by omega⟩
          · exact Or.inr (by omega)
      · rw [List.pairwise_cons]
        refine ⟨?_, ihP⟩
        intro p hp hint
        rcases ihF p hp with ⟨hy, hx⟩ | hge
        · have hcon : p.position.x ≤ x + n.size.width := hint.2.1
          omega
        · have hcon : p.position.y ≤ y + n.size.height := hint.2.2.2
          have hm := le_max_right rowH n.size.height
          omega

/-- C1: confirmed. For a graph whose nodes all have strictly positive
width and height, the grid layout engine with default options (sixty and
forty pixel spacings, forty pixel padding) places the nodes so that no two
of them have intersecting axis-aligned bounding rectangles, even taken as
closed point sets. -/
theorem c1_grid_no_overlap (g : Graph)
    (hpos : ∀ n ∈ g.nodes, 0 < n.size.width ∧ 0 < n.size.height) :
    (gridLayout g none).nodes.Pairwise
      (fun a b => ¬ rectsIntersect (nodeRect a) (nodeRect b)) := by
  have hnodes : (gridLayout g none).nodes =
      gridPlace 60 40 40 (natCeilSqrt g.nodes.length) g.nodes 40 40 0 0 := by
    show (computeGraphBounds
      { g with nodes := gridPlace 60 40 40 (natCeilSqrt g.nodes.length) g.nodes 40 40 0 0 }
      40).nodes = _
    rw [computeGraphBounds_nodes]
  rw [hnodes]
  exact (gridPlace_spec 60 40 40 (natCeilSqrt g.nodes.length)
    (by decide) (by decide) g.nodes hpos 40 40 0 0).2

theorem c1_witness :
    (∀ n ∈ c1graph.nodes, 0 < n.size.width ∧ 0 < n.size.height) ∧
    (gridLayout c1graph none).nodes.Pairwise
      (fun a b => ¬ rectsIntersect (nodeRect a) (nodeRect b)) :=
  ⟨by decide, c1_grid_no_overlap c1graph (by decide)⟩

end Erd
